import Mathlib

/-!
Shallow embedding of the gear-train connectivity and kinematics engine of
`src/js/GearSimulator.js` and `src/js/GearGeometry.js`.

Conventions of the embedding:
* JS numbers are modelled as rationals (`ℚ`); the gear registry `this.gears`
  is a `List Gear`; object references are replaced by stable integer ids
  (`Gear.id`), with `connectedTo` an adjacency list of ids.
* The source compares Euclidean distances (`position.distanceTo`) against
  thresholds.  The Euclidean distance of rational points is irrational, so the
  embedding carries the squared distance `dist2` and encodes each comparison
  `√s < c` as `0 < c ∧ s < c^2` (`sqrtLt`) and `√s > c` as `c < 0 ∨ c^2 < s`
  (`sqrtGt`); lemmas `sqrtLt_iff`/`sqrtGt_iff` prove these encodings agree
  with the real-number comparisons.
* Presentation-only effects (mesh colors, sounds, DOM messages, XR panels)
  are not part of the state; the per-gear fields `incompatibleWith`,
  `jammingError`, `overlapError` model the error state exactly as stored on
  the JS gear objects.
-/

namespace GearSim

/-- A 3D position in scene units (`gear.mesh.position`). -/
structure Vec3 where
  x : ℚ
  y : ℚ
  z : ℚ
deriving DecidableEq

/-- Squared Euclidean distance between two positions
(`position.distanceTo` squared). -/
def dist2 (p q : Vec3) : ℚ :=
  (p.x - q.x) ^ 2 + (p.y - q.y) ^ 2 + (p.z - q.z) ^ 2

/-- `√s < c`, encoded over rationals for squared distance `s ≥ 0`. -/
def sqrtLt (s c : ℚ) : Bool :=
  decide (0 < c) && decide (s < c ^ 2)

/-- `√s > c`, encoded over rationals for squared distance `s ≥ 0`. -/
def sqrtGt (s c : ℚ) : Bool :=
  decide (c < 0) || decide (c ^ 2 < s)

/-- `|√s - ideal| < thr` : the squared distance `s` is within `thr` of the
ideal meshing distance. -/
def distWithin (s ideal thr : ℚ) : Bool :=
  sqrtLt s (ideal + thr) && sqrtGt s (ideal - thr)

/-- `|√s - ideal| > thr` : the squared distance `s` is farther than `thr`
from the ideal meshing distance. -/
def distBeyond (s ideal thr : ℚ) : Bool :=
  sqrtGt s (ideal + thr) || sqrtLt s (ideal - thr)

/-- The parameter record stored on each gear (`gear.params` in `addGear`). -/
structure GearParams where
  teeth : ℚ
  module : ℚ
  pressureAngle : ℚ
  thickness : ℚ
  boreDiameter : ℚ
  pitchDiameter : ℚ
deriving DecidableEq

/-- A gear entity of the registry (`this.gears` entries created by
`addGear`).  `connectedTo` holds the ids of the meshed neighbours. -/
structure Gear where
  id : ℕ
  params : GearParams
  pos : Vec3
  rpm : ℚ
  rotationDirection : ℤ
  connectedTo : List ℕ
  isDriver : Bool
  incompatibleWith : Option ℕ
  jammingError : Bool
  overlapError : Bool
deriving DecidableEq

/-- The simulator state (the fields of `GearSimulator` the engine reads). -/
structure SimState where
  gears : List Gear
  selectedGear : Option ℕ
  isPlaying : Bool
  inputRPM : ℚ
  nextGearId : ℕ
deriving DecidableEq

/-- Resolve a gear id to the (first) gear of the registry carrying it;
this models dereferencing a JS object reference. -/
def findGear (gears : List Gear) (i : ℕ) : Option Gear :=
  gears.find? (fun g => g.id = i)

/-- Adjacency of the connectivity graph: the `connectedTo` list of the gear
with id `i`. -/
def adj (gears : List Gear) (i : ℕ) : List ℕ :=
  ((findGear gears i).map Gear.connectedTo).getD []

/-- Total number of adjacency entries over the whole registry; used as fuel
bound for the breadth-first searches. -/
def totalAdj (gears : List Gear) : ℕ :=
  (gears.map (fun g => g.connectedTo.length)).sum

/-- `areGearsCompatible` (GearSimulator.js:2097): gears are compatible when
their modules differ by less than `0.001`. -/
def areGearsCompatible (g1 g2 : Gear) : Bool :=
  decide (|g1.params.module - g2.params.module| < 1 / 1000)

/-- The ideal meshing distance `(pitchDiameter₁ + pitchDiameter₂) / 2`. -/
def idealDistance (g1 g2 : Gear) : ℚ :=
  (g1.params.pitchDiameter + g2.params.pitchDiameter) / 2

/-- `checkGearsOverlap` (GearSimulator.js:2197): overlap iff the centre
distance is below `0.9` times the ideal meshing distance. -/
def checkGearsOverlap (g1 g2 : Gear) : Bool :=
  sqrtLt (dist2 g1.pos g2.pos) (idealDistance g1 g2 * (9 / 10))

/-- The sequential `visited.has`/`visited.add` filtering of a neighbour list
inside the BFS of `wouldCauseJamming`: keeps each neighbour not yet visited,
marking it visited at once. -/
def freshNeighbors (visited : Finset ℕ) : List ℕ → List ℕ
  | [] => []
  | n :: ns =>
    if n ∈ visited then freshNeighbors visited ns
    else n :: freshNeighbors (insert n visited) ns

/-- The BFS loop body of `wouldCauseJamming` (GearSimulator.js:2123-2144).
Queue entries are `(gear id, depth)`.  When the target `g2` occurs among the
neighbours of the dequeued gear at depth `d`, the closing cycle has length
`d + 2`; an odd cycle means jamming.  `fuel` only forces termination; the
chosen fuel is proven sufficient, so the `fuel = 0` branch is never taken. -/
def jamSearch (gears : List Gear) (g2 : ℕ) :
    ℕ → List (ℕ × ℕ) → Finset ℕ → Bool
  | _, [], _ => false
  | 0, _ :: _, _ => false
  | fuel + 1, (gid, depth) :: rest, visited =>
    let nbrs := adj gears gid
    if g2 ∈ nbrs then decide ((depth + 2) % 2 = 1)
    else
      let fresh := freshNeighbors visited nbrs
      jamSearch gears g2 fuel (rest ++ fresh.map (fun n => (n, depth + 1)))
        (visited ∪ fresh.toFinset)

/-- `wouldCauseJamming` (GearSimulator.js:2102): connecting `g1`-`g2` jams
iff a path between them already exists and closing it yields an odd cycle. -/
def wouldCauseJamming (gears : List Gear) (g1 g2 : Gear) : Bool :=
  if g1.connectedTo.isEmpty && g2.connectedTo.isEmpty then false
  else jamSearch gears g2.id (totalAdj gears + 1) [(g1.id, 0)] {g1.id}

/-- `connectGears` (GearSimulator.js:2498): push each gear onto the other's
adjacency list unless already present. -/
def pushUnique (l : List ℕ) (n : ℕ) : List ℕ :=
  if n ∈ l then l else l ++ [n]

/-- Apply `connectGears` to the gears at list indices `i` and `j` (whose
current values are `g1` and `g2`). -/
def connectGearsAt (gears : List Gear) (i j : ℕ) (g1 g2 : Gear) : List Gear :=
  (gears.set i { g1 with connectedTo := pushUnique g1.connectedTo g2.id }).set j
    { g2 with connectedTo := pushUnique g2.connectedTo g1.id }

/-- All index pairs `i < j < n`, in the enumeration order of the double loop
`for i; for j = i+1` of `updateConnections`. -/
def pairIndices (n : ℕ) : List (ℕ × ℕ) :=
  ((List.range n).map (fun i => ((List.range n).drop (i + 1)).map (fun j => (i, j)))).flatten

/-- Candidate collection of `updateConnections` (GearSimulator.js:2558-2580):
all pairs whose centre distance is within `meshThreshold = 3` of the ideal
distance, tagged with the squared distance. -/
def collectCandidates (gears : List Gear) : List (ℕ × ℕ × ℚ) :=
  (pairIndices gears.length).filterMap (fun p =>
    match gears[p.1]?, gears[p.2]? with
    | some g1, some g2 =>
      if distWithin (dist2 g1.pos g2.pos) (idealDistance g1 g2) 3 then
        some (p.1, p.2, dist2 g1.pos g2.pos)
      else none
    | _, _ => none)

/-- Stable insertion into a list sorted by ascending distance: an element is
inserted before the first strictly farther one, so ties keep their original
relative order, as JS `Array.prototype.sort` guarantees. -/
def insertByDist (c : ℕ × ℕ × ℚ) : List (ℕ × ℕ × ℚ) → List (ℕ × ℕ × ℚ)
  | [] => [c]
  | d :: ds => if c.2.2 ≤ d.2.2 then c :: d :: ds else d :: insertByDist c ds

/-- The stable ascending sort by distance of the candidate list
(`potentialConnections.sort((a, b) => a.distance - b.distance)`). -/
def sortByDist : List (ℕ × ℕ × ℚ) → List (ℕ × ℕ × ℚ)
  | [] => []
  | c :: cs => insertByDist c (sortByDist cs)

/-- The overlap scan of `updateConnections` (GearSimulator.js:2585-2601):
the first pair (in enumeration order) of overlapping gears, if any. -/
def findOverlapPair (gears : List Gear) : Option (ℕ × ℕ) :=
  (pairIndices gears.length).find? (fun p =>
    match gears[p.1]?, gears[p.2]? with
    | some g1, some g2 => checkGearsOverlap g1 g2
    | _, _ => false)

/-- The connection loop of `updateConnections` (GearSimulator.js:2603-2630):
process the sorted candidates, skipping overlapping and module-incompatible
pairs, recording the first jamming pair, and connecting the rest. -/
def connectLoop : List (ℕ × ℕ × ℚ) → List Gear → Option (ℕ × ℕ) →
    List Gear × Option (ℕ × ℕ)
  | [], gears, jam => (gears, jam)
  | c :: rest, gears, jam =>
    match gears[c.1]?, gears[c.2.1]? with
    | some g1, some g2 =>
      if checkGearsOverlap g1 g2 then connectLoop rest gears jam
      else if !areGearsCompatible g1 g2 then connectLoop rest gears jam
      else if wouldCauseJamming gears g1 g2 then
        connectLoop rest gears (jam.orElse (fun _ => some (c.1, c.2.1)))
      else connectLoop rest (connectGearsAt gears c.1 c.2.1 g1 g2) jam
    | _, _ => connectLoop rest gears jam

/-- Reset of the error fields performed by `clearIncompatibleState`
(GearSimulator.js:2393-2397). -/
def clearErrorFields (g : Gear) : Gear :=
  { g with incompatibleWith := none, jammingError := false, overlapError := false }

/-- `clearIncompatibleState` (GearSimulator.js:2377): a no-op unless an
`incompatibleWith` reference is set. -/
def clearIncompatibleState (g : Gear) : Gear :=
  if g.incompatibleWith.isSome then clearErrorFields g else g

/-- First cleanup phase of `updateConnections` (GearSimulator.js:2522-2528):
clear every jamming/overlap error. -/
def phase1 (gears : List Gear) : List Gear :=
  gears.map (fun g =>
    if g.incompatibleWith.isSome && (g.jammingError || g.overlapError) then
      clearIncompatibleState g
    else g)

/-- Per-gear step of the second cleanup phase of `updateConnections`
(GearSimulator.js:2530-2552): clear a module-incompatibility error once the
pair has moved `incompatibleClearThreshold = 10` units away from the ideal
meshing distance, or the target gear no longer exists. -/
def phase2Step (gears : List Gear) (g : Gear) : Gear :=
  if g.incompatibleWith.isSome && !g.jammingError && !g.overlapError then
    match g.incompatibleWith.bind (findGear gears) with
    | none => clearIncompatibleState g
    | some target =>
      if distBeyond (dist2 g.pos target.pos) (idealDistance g target) 10 then
        clearIncompatibleState g
      else g
  else g

/-- Second cleanup phase of `updateConnections`. -/
def phase2 (gears : List Gear) : List Gear :=
  gears.map (phase2Step gears)

/-- `setOverlapState` (GearSimulator.js:2213), state fields only. -/
def setOverlapFields (g : Gear) (target : ℕ) : Gear :=
  { g with incompatibleWith := some target, overlapError := true }

/-- `setJammingState` (GearSimulator.js:2149), state fields only. -/
def setJammingFields (g : Gear) (target : ℕ) : Gear :=
  { g with incompatibleWith := some target, jammingError := true }

/-- Error surfacing of `updateConnections` (GearSimulator.js:2632-2661):
pick the error-carrying gear of the pair (preferring the selected gear) and
set the overlap or jamming error on it. -/
def setErrorAt (gears : List Gear) (sel : Option ℕ) (i j : ℕ)
    (isOverlap : Bool) : List Gear :=
  match gears[i]?, gears[j]? with
  | some gi, some gj =>
    let p := if sel = some gi.id then (i, gi, gj)
             else if sel = some gj.id then (j, gj, gi)
             else (i, gi, gj)
    if isOverlap then gears.set p.1 (setOverlapFields p.2.1 p.2.2.id)
    else gears.set p.1 (setJammingFields p.2.1 p.2.2.id)
  | _, _ => gears

/-- Error selection of `updateConnections`: one overlap error has priority
over one jamming error. -/
def applyError (gears : List Gear) (sel : Option ℕ)
    (overlapPair jamPair : Option (ℕ × ℕ)) : List Gear :=
  match overlapPair with
  | some p => setErrorAt gears sel p.1 p.2 true
  | none =>
    match jamPair with
    | some p => setErrorAt gears sel p.1 p.2 false
    | none => gears

/-- `updateConnections` (GearSimulator.js:2517-2662): the authoritative
full-graph rebuild. -/
def updateConnections (s : SimState) : SimState :=
  let gs1 := phase1 s.gears
  let gs2 := phase2 gs1
  let gs3 := gs2.map (fun g => { g with connectedTo := [] })
  let cands := sortByDist (collectCandidates gs3)
  let overlapPair := findOverlapPair gs3
  let r := connectLoop cands gs3 none
  let gs5 := applyError r.1 s.selectedGear overlapPair r.2
  { s with gears := gs5 }

/-- Replace the first gear carrying id `i` (models mutating the JS object). -/
def setById : List Gear → ℕ → Gear → List Gear
  | [], _, _ => []
  | g :: gs, i, g2 => if g.id = i then g2 :: gs else g :: setById gs i g2

/-- The neighbour scan of the BFS of `calculateGearSpeeds`
(GearSimulator.js:2983-2996): each not-yet-visited neighbour gets
`rpm = current.rpm * (current.teeth / connected.teeth)` and the opposite
rotation direction, and is enqueued. -/
def visitNeighbors (current : Gear) (gears : List Gear) (visited : Finset ℕ) :
    List ℕ → List Gear × List ℕ
  | [] => (gears, [])
  | cid :: rest =>
    if cid ∈ visited then visitNeighbors current gears visited rest
    else
      match findGear gears cid with
      | none =>
        let r := visitNeighbors current gears (insert cid visited) rest
        (r.1, cid :: r.2)
      | some connected =>
        let g2 := { connected with
          rpm := current.rpm * (current.params.teeth / connected.params.teeth),
          rotationDirection := -current.rotationDirection }
        let r := visitNeighbors current (setById gears cid g2)
          (insert cid visited) rest
        (r.1, cid :: r.2)

/-- The BFS loop of `calculateGearSpeeds` (GearSimulator.js:2980-2997).
`fuel` only forces termination and the chosen fuel is sufficient. -/
def propagate (fuel : ℕ) (gears : List Gear) (queue : List ℕ)
    (visited : Finset ℕ) : List Gear :=
  match fuel, queue with
  | _, [] => gears
  | 0, _ :: _ => gears
  | fuel + 1, gid :: rest =>
    match findGear gears gid with
    | none => propagate fuel gears rest visited
    | some current =>
      let r := visitNeighbors current gears visited current.connectedTo
      propagate fuel r.1 (rest ++ r.2) (visited ∪ r.2.toFinset)

/-- `calculateGearSpeeds` (GearSimulator.js:2967-3000): seed the driver gear
(falling back to the first gear) with the input RPM and direction `+1`, then
propagate by BFS. -/
def calculateGearSpeeds (s : SimState) : SimState :=
  match (s.gears.find? (fun g => g.isDriver)).orElse (fun _ => s.gears.head?) with
  | none => s
  | some driver =>
    let d2 := { driver with rpm := s.inputRPM, rotationDirection := 1 }
    let gears1 := setById s.gears driver.id d2
    { s with gears := propagate (totalAdj gears1 + 1) gears1 [driver.id] {driver.id} }

/-- `play` (GearSimulator.js:2938): refuse while any gear carries a jamming
error; otherwise start playing and run the kinematics propagation. -/
def play (s : SimState) : SimState :=
  if s.gears.any (fun g => g.jammingError) then s
  else calculateGearSpeeds { s with isPlaying := true }

/-- The derived dimensions computed by the `GearGeometry` constructor
(GearGeometry.js:15-36).  The `x || default` fallbacks of the constructor are
mirrored by treating `0` as falsy.  `baseRadius` (a cosine, used only for the
rendered tooth polyline) is omitted: no claim and no meshing rule reads it. -/
structure GearGeom where
  teeth : ℚ
  module : ℚ
  thickness : ℚ
  boreDiameter : ℚ
  pitchDiameter : ℚ
  pitchRadius : ℚ
  addendum : ℚ
  dedendum : ℚ
  outerRadius : ℚ
  rootRadius : ℚ
  boreRadius : ℚ
deriving DecidableEq

/-- The JS truthiness fallback `value || default` for numbers. -/
def orDefault (v : ℚ) (d : ℚ) : ℚ :=
  if v = 0 then d else v

/-- The `GearGeometry` constructor (GearGeometry.js:15-36). -/
def mkGearGeometry (teeth0 module0 thickness0 bore0 : ℚ) : GearGeom :=
  let teeth := orDefault teeth0 20
  let m := orDefault module0 2
  let thickness := orDefault thickness0 5
  let boreDiameter := orDefault bore0 5
  let pitchDiameter := teeth * m
  let pitchRadius := pitchDiameter / 2
  let addendum := m
  let dedendum := 5 / 4 * m
  let outerRadius := pitchRadius + addendum
  let rootRadius := pitchRadius - dedendum
  let boreRadius0 := boreDiameter / 2
  let boreRadius := if boreRadius0 ≥ rootRadius then rootRadius * (1 / 2) else boreRadius0
  { teeth := teeth, module := m, thickness := thickness,
    boreDiameter := boreDiameter, pitchDiameter := pitchDiameter,
    pitchRadius := pitchRadius, addendum := addendum, dedendum := dedendum,
    outerRadius := outerRadius, rootRadius := rootRadius, boreRadius := boreRadius }

/-- `Math.max(lo, Math.min(hi, x))`. -/
def clamp (lo hi x : ℚ) : ℚ :=
  max lo (min hi x)

/-- `addGear` (GearSimulator.js:2809-2871).  The five raw parameter values
come from the DOM inputs; a `none` models a failed parse (`parseInt` of an
empty field) and, like a parsed `0`, falls back to the default via `||`.
The stored `params` are the raw (defaulted) values: `addGear` performs no
range clamping. -/
def addGear (s : SimState) (teeth? module? pressureAngle? thickness? bore? : Option ℚ) :
    SimState :=
  let teeth := orDefault (teeth?.getD 0) 20
  let m := orDefault (module?.getD 0) 2
  let pressureAngle := orDefault (pressureAngle?.getD 0) 20
  let thickness := orDefault (thickness?.getD 0) 5
  let bore := orDefault (bore?.getD 0) 5
  let geom := mkGearGeometry teeth m thickness bore
  let gear : Gear :=
    { id := s.nextGearId,
      params :=
        { teeth := teeth, module := m, pressureAngle := pressureAngle,
          thickness := thickness, boreDiameter := bore,
          pitchDiameter := geom.pitchDiameter },
      pos := { x := (s.gears.length : ℚ) * 50, y := 0, z := 0 },
      rpm := 0, rotationDirection := 1, connectedTo := [],
      isDriver := s.gears.length == 0,
      incompatibleWith := none, jammingError := false, overlapError := false }
  { s with gears := s.gears ++ [gear], nextGearId := s.nextGearId + 1,
           selectedGear := some gear.id }

/-- `updateSelectedGearParams` (GearSimulator.js:2720-2794): clamp the five
requested parameters (GearSimulator.js:2740-2745), rebuild the geometry,
replace the selected gear's params keeping its position, then rebuild the
connectivity.  Raw values are the parsed DOM inputs. -/
def updateSelectedGearParams (s : SimState)
    (teeth0 module0 pressureAngle0 thickness0 bore0 : ℚ) : SimState :=
  match s.selectedGear with
  | none => s
  | some sid =>
    match findGear s.gears sid with
    | none => { s with selectedGear := none }
    | some g =>
      let teeth := clamp 8 100 teeth0
      let m := clamp (1 / 2) 10 module0
      let pressureAngle := clamp (29 / 2) 25 pressureAngle0
      let thickness := clamp 1 20 thickness0
      let bore := clamp 1 20 bore0
      let geom := mkGearGeometry teeth m thickness bore
      let newParams : GearParams :=
        { teeth := teeth, module := m, pressureAngle := pressureAngle,
          thickness := thickness, boreDiameter := bore,
          pitchDiameter := geom.pitchDiameter }
      let gears2 := setById s.gears sid { g with params := newParams }
      updateConnections { s with gears := gears2 }

/-! ### Auxiliary notions used by the verification

Projections of a gear, walks in the connectivity graph, well-formedness
predicates, and the concrete scenes of the spec's test scenarios. -/

/-- Geometric signature of a gear: the fields the distance-based rules of
`updateConnections` read. -/
def sig (g : Gear) : ℕ × Vec3 × GearParams :=
  (g.id, g.pos, g.params)

/-- Graph signature of a gear: the fields the breadth-first searches read. -/
def connSig (g : Gear) : ℕ × List ℕ :=
  (g.id, g.connectedTo)

/-- Every field of a gear except its adjacency list. -/
def exceptConn (g : Gear) : ℕ × GearParams × Vec3 × ℚ × ℤ × Bool × Option ℕ × Bool × Bool :=
  (g.id, g.params, g.pos, g.rpm, g.rotationDirection, g.isDriver,
    g.incompatibleWith, g.jammingError, g.overlapError)

/-- Clear the error fields of the gear at list index `e` (if any). -/
def clearAt (gears : List Gear) (e : ℕ) : List Gear :=
  match gears[e]? with
  | some g => gears.set e (clearErrorFields g)
  | none => gears

/-- The cleared registry `updateConnections` feeds to its candidate scan,
overlap scan and connection loop: the two cleanup phases followed by the
`connectedTo = []` reset (`gs3` of the pipeline). -/
def rebuildBase (s : SimState) : List Gear :=
  (phase2 (phase1 s.gears)).map (fun g => { g with connectedTo := [] })

/-- The registry and recorded jamming pair after the connection loop of
`updateConnections` (`gs4` of the pipeline). -/
def rebuildConnected (s : SimState) : List Gear × Option (ℕ × ℕ) :=
  connectLoop (sortByDist (collectCandidates (rebuildBase s))) (rebuildBase s) none

/-- All gear ids of the registry are pairwise distinct (as `nextGearId++`
guarantees). -/
def UniqueIds (gears : List Gear) : Prop :=
  (gears.map Gear.id).Nodup

instance (gears : List Gear) : Decidable (UniqueIds gears) := by
  unfold UniqueIds; infer_instance

/-- No gear carries a jamming or overlap flag. -/
def NoFlags (gears : List Gear) : Prop :=
  ∀ g ∈ gears, g.jammingError = false ∧ g.overlapError = false

/-- Well-formed error state: a jamming or overlap flag always comes with an
`incompatibleWith` reference, as `setJammingState`/`setOverlapState` ensure. -/
def FlagsWithRef (gears : List Gear) : Prop :=
  ∀ g ∈ gears, (g.jammingError = true ∨ g.overlapError = true) →
    g.incompatibleWith ≠ none

instance (gears : List Gear) : Decidable (NoFlags gears) := by
  unfold NoFlags; infer_instance

instance (gears : List Gear) : Decidable (FlagsWithRef gears) := by
  unfold FlagsWithRef; infer_instance

/-- All ids occurring in some adjacency list of the registry. -/
def adjTargets (gears : List Gear) : Finset ℕ :=
  gears.foldr (fun g acc => g.connectedTo.toFinset ∪ acc) ∅

/-- A walk of `n` edges from `u` to `v` over the `connectedTo` adjacency of
the registry. -/
inductive AdjWalk (gears : List Gear) : ℕ → ℕ → ℕ → Prop where
  | refl (u : ℕ) : AdjWalk gears u u 0
  | step {u v w : ℕ} {n : ℕ} (h : v ∈ adj gears u)
      (hw : AdjWalk gears v w n) : AdjWalk gears u w (n + 1)

/-- A default gear for concrete scenes: module `2`, no connections, no
errors. -/
def sampleGear (i : ℕ) (teeth pd : ℚ) (drv : Bool) (p : Vec3) : Gear :=
  { id := i,
    params :=
      { teeth := teeth, module := 2, pressureAngle := 20,
        thickness := 5, boreDiameter := 5, pitchDiameter := pd },
    pos := p, rpm := 0, rotationDirection := 1, connectedTo := [],
    isDriver := drv, incompatibleWith := none, jammingError := false,
    overlapError := false }

/-- Three equal-module gears in a near-equilateral triangle: every pair is
within meshing range, and the A-C pair is the farthest, so the rebuild
connects A-B and B-C first and then attempts A-C. -/
def triState : SimState :=
  { gears := [sampleGear 1 25 50 true ⟨0, 0, 0⟩,
              sampleGear 2 25 50 false ⟨50, 0, 0⟩,
              sampleGear 3 25 50 false ⟨26, 44, 0⟩],
    selectedGear := none, isPlaying := false, inputRPM := 30, nextGearId := 4 }

/-- Four equal-module gears in a square of side `50` (the ideal meshing
distance): the rebuild closes the even 4-cycle A-B-C-D-A. -/
def squareState : SimState :=
  { gears := [sampleGear 1 25 50 true ⟨0, 0, 0⟩,
              sampleGear 2 25 50 false ⟨50, 0, 0⟩,
              sampleGear 3 25 50 false ⟨50, 50, 0⟩,
              sampleGear 4 25 50 false ⟨0, 50, 0⟩],
    selectedGear := none, isPlaying := false, inputRPM := 30, nextGearId := 5 }

/-- The kinematics chain scenario: gears with 20/30/15 teeth in a row at
their ideal meshing distances, the first being the driver. -/
def chainState : SimState :=
  { gears := [sampleGear 1 20 40 true ⟨0, 0, 0⟩,
              sampleGear 2 30 60 false ⟨50, 0, 0⟩,
              sampleGear 3 15 30 false ⟨95, 0, 0⟩],
    selectedGear := none, isPlaying := false, inputRPM := 30, nextGearId := 4 }

/-- An already-built chain graph A-B-C (edges only), used to exercise
`wouldCauseJamming` directly. -/
def jamGraphGears : List Gear :=
  [{ sampleGear 1 25 50 true ⟨0, 0, 0⟩ with connectedTo := [2] },
   { sampleGear 2 25 50 false ⟨50, 0, 0⟩ with connectedTo := [1, 3] },
   { sampleGear 3 25 50 false ⟨26, 44, 0⟩ with connectedTo := [2] }]

/-- A state with a gear carrying a jamming error, as left by the rebuild. -/
def jammedState : SimState :=
  { gears := [{ sampleGear 1 25 50 true ⟨0, 0, 0⟩ with
                  rpm := 7, jammingError := true, incompatibleWith := some 3 },
              sampleGear 2 25 50 false ⟨200, 0, 0⟩],
    selectedGear := none, isPlaying := false, inputRPM := 30, nextGearId := 3 }

/-- Driver A (20 teeth) meshed with B (30 teeth) at ideal distance. -/
def abState : SimState :=
  { gears := [sampleGear 1 20 40 true ⟨0, 0, 0⟩,
              sampleGear 2 30 60 false ⟨50, 0, 0⟩],
    selectedGear := none, isPlaying := false, inputRPM := 30, nextGearId := 3 }

/-- `abState` after rebuilding connections, playing at 30 RPM (so B carries
`rpm = 20`), and then dragging B far away: the scene just before the next
rebuild. -/
def abMovedState : SimState :=
  let t := play (updateConnections abState)
  { t with gears :=
      match findGear t.gears 2 with
      | some g => setById t.gears 2 { g with pos := ⟨200, 0, 0⟩ }
      | none => t.gears }

/-- Two gears of differing modules (2 vs 3) placed exactly at their ideal
meshing distance `50`. -/
def incompatState : SimState :=
  { gears := [sampleGear 1 20 40 true ⟨0, 0, 0⟩,
              { sampleGear 2 20 60 false ⟨50, 0, 0⟩ with
                  params :=
                    { teeth := 20, module := 3, pressureAngle := 20,
                      thickness := 5, boreDiameter := 5, pitchDiameter := 60 } }],
    selectedGear := none, isPlaying := false, inputRPM := 30, nextGearId := 3 }

/-- Like `incompatState`, but the first gear still carries a module-mismatch
error from an earlier snap attempt against the second. -/
def leftoverState : SimState :=
  { gears := [{ sampleGear 1 20 40 true ⟨0, 0, 0⟩ with incompatibleWith := some 2 },
              { sampleGear 2 20 60 false ⟨50, 0, 0⟩ with
                  params :=
                    { teeth := 20, module := 3, pressureAngle := 20,
                      thickness := 5, boreDiameter := 5, pitchDiameter := 60 } }],
    selectedGear := none, isPlaying := false, inputRPM := 30, nextGearId := 3 }

/-- Two equal-module gears whose centres are closer than 90% of the ideal
meshing distance: an overlapping pair. -/
def overlapPairState : SimState :=
  { gears := [sampleGear 1 20 40 true ⟨0, 0, 0⟩,
              sampleGear 2 20 40 false ⟨30, 0, 0⟩],
    selectedGear := none, isPlaying := false, inputRPM := 30, nextGearId := 3 }

/-- The empty scene. -/
def emptyState : SimState :=
  { gears := [], selectedGear := none, isPlaying := false, inputRPM := 30,
    nextGearId := 1 }

/-- A two-gear scene in which no gear is marked as driver (as after deleting
the driver gear). -/
def noDriverState : SimState :=
  { gears := [sampleGear 1 20 40 false ⟨0, 0, 0⟩,
              sampleGear 2 30 60 false ⟨50, 0, 0⟩],
    selectedGear := none, isPlaying := false, inputRPM := 30, nextGearId := 3 }

/-- A one-gear scene with the gear selected, for exercising
`updateSelectedGearParams`. -/
def selState : SimState :=
  { gears := [sampleGear 1 20 40 true ⟨0, 0, 0⟩],
    selectedGear := some 1, isPlaying := false, inputRPM := 30, nextGearId := 2 }

/-!  ## Theorems  -/

section Claims

attribute [local semireducible] Rat.mul Rat.add Rat.sub Rat.inv Rat.ofScientific

/-! ### Projection lemmas

`sig` captures the fields the geometric rules read, `connSig` the fields the
breadth-first searches read.  Operations that only touch other fields leave
these projections unchanged, which lets facts transfer between pipeline
stages of `updateConnections`. -/

theorem sig_fields {x y : Gear} (h : sig x = sig y) :
    x.id = y.id ∧ x.pos = y.pos ∧ x.params = y.params := by
  unfold sig at h
  simp only [Prod.mk.injEq] at h
  exact ⟨h.1, h.2.1, h.2.2⟩

theorem connSig_fields {x y : Gear} (h : connSig x = connSig y) :
    x.id = y.id ∧ x.connectedTo = y.connectedTo := by
  unfold connSig at h
  simp only [Prod.mk.injEq] at h
  exact h

theorem sig_clearErrorFields (g : Gear) : sig (clearErrorFields g) = sig g := rfl

theorem connSig_clearErrorFields (g : Gear) :
    connSig (clearErrorFields g) = connSig g := rfl

theorem getElem?_map_proj {α : Type} (f : Gear → α) {X Y : List Gear}
    (h : X.map f = Y.map f) (i : ℕ) : X[i]?.map f = Y[i]?.map f := by
  rw [← List.getElem?_map, ← List.getElem?_map, h]

theorem length_eq_of_map_proj {α : Type} (f : Gear → α) {X Y : List Gear}
    (h : X.map f = Y.map f) : X.length = Y.length := by
  rw [← List.length_map X f, ← List.length_map Y f, h]

theorem findGear_congr_proj {α : Type} (f : Gear → α)
    (hid : ∀ x y : Gear, f x = f y → x.id = y.id) :
    ∀ {X Y : List Gear}, X.map f = Y.map f →
      ∀ t, (findGear X t).map f = (findGear Y t).map f := by
  intro X
  induction X with
  | nil =>
    intro Y h t
    cases Y with
    | nil => rfl
    | cons y ys => simp at h
  | cons x xs ih =>
    intro Y h t
    cases Y with
    | nil => simp at h
    | cons y ys =>
      simp only [List.map_cons, List.cons.injEq] at h
      obtain ⟨h1, h2⟩ := h
      have hxy : x.id = y.id := hid x y h1
      unfold findGear
      by_cases hx : x.id = t
      · rw [List.find?_cons_of_pos _ (by simp [hx]),
          List.find?_cons_of_pos _ (by simp [hxy ▸ hx])]
        simpa using h1
      · rw [List.find?_cons_of_neg _ (by simp [hx]),
          List.find?_cons_of_neg _ (by simp [hxy ▸ hx])]
        exact ih h2 t

theorem adj_congr {X Y : List Gear} (h : X.map connSig = Y.map connSig)
    (i : ℕ) : adj X i = adj Y i := by
  have hf := findGear_congr_proj connSig
    (fun x y hxy => (connSig_fields hxy).1) h i
  unfold adj
  cases hX : findGear X i with
  | none =>
    cases hY : findGear Y i with
    | none => rfl
    | some gy => rw [hX, hY] at hf; simp at hf
  | some gx =>
    cases hY : findGear Y i with
    | none => rw [hX, hY] at hf; simp at hf
    | some gy =>
      rw [hX, hY] at hf
      simp only [Option.map_some', Option.some.injEq] at hf
      simp [(connSig_fields hf).2]

theorem totalAdj_congr {X Y : List Gear} (h : X.map connSig = Y.map connSig) :
    totalAdj X = totalAdj Y := by
  unfold totalAdj
  have : X.map (fun g => g.connectedTo.length) =
      Y.map (fun g => g.connectedTo.length) := by
    have h2 := congrArg (List.map (fun p : ℕ × List ℕ => p.2.length)) h
    simpa [Function.comp] using h2
  rw [this]

theorem jamSearch_congr {X Y : List Gear} (hadj : ∀ i, adj X i = adj Y i)
    (t : ℕ) :
    ∀ fuel queue visited,
      jamSearch X t fuel queue visited = jamSearch Y t fuel queue visited := by
  intro fuel
  induction fuel with
  | zero =>
    intro queue visited
    cases queue <;> rfl
  | succ fuel ih =>
    intro queue visited
    cases queue with
    | nil => rfl
    | cons p rest =>
      obtain ⟨gid, depth⟩ := p
      simp only [jamSearch, hadj gid]
      by_cases hmem : t ∈ adj Y gid
      · simp [hmem]
      · simp only [hmem, if_false]
        exact ih _ _

theorem list_set_self {α : Type} (l : List α) (i : ℕ) (a : α)
    (h : l[i]? = some a) : l.set i a = l := by
  induction l generalizing i with
  | nil => simp at h
  | cons x xs ih =>
    cases i with
    | zero =>
      simp only [List.getElem?_cons_zero, Option.some.injEq] at h
      simp [List.set, h]
    | succ n =>
      simp only [List.getElem?_cons_succ] at h
      simp [List.set, ih n h]

theorem map_proj_set {α : Type} (f : Gear → α) (X : List Gear) (i : ℕ)
    (v : Gear) (h : X[i]?.map f = some (f v)) :
    (X.set i v).map f = X.map f := by
  rw [List.map_set]
  apply list_set_self
  rw [List.getElem?_map]
  exact h

theorem wouldCauseJamming_congr {X Y : List Gear} {g1 g2 g1a g2a : Gear}
    (hconn : X.map connSig = Y.map connSig)
    (h1 : connSig g1 = connSig g1a) (h2 : connSig g2 = connSig g2a) :
    wouldCauseJamming X g1 g2 = wouldCauseJamming Y g1a g2a := by
  obtain ⟨h1i, h1c⟩ := connSig_fields h1
  obtain ⟨h2i, h2c⟩ := connSig_fields h2
  unfold wouldCauseJamming
  rw [h1c, h2c, h1i, h2i, totalAdj_congr hconn,
    jamSearch_congr (fun i => adj_congr hconn i) g2a.id]

theorem checkGearsOverlap_congr {g1 g2 g1a g2a : Gear}
    (h1 : sig g1 = sig g1a) (h2 : sig g2 = sig g2a) :
    checkGearsOverlap g1 g2 = checkGearsOverlap g1a g2a := by
  obtain ⟨-, h1p, h1q⟩ := sig_fields h1
  obtain ⟨-, h2p, h2q⟩ := sig_fields h2
  unfold checkGearsOverlap idealDistance
  rw [h1p, h2p, h1q, h2q]

theorem areGearsCompatible_congr {g1 g2 g1a g2a : Gear}
    (h1 : sig g1 = sig g1a) (h2 : sig g2 = sig g2a) :
    areGearsCompatible g1 g2 = areGearsCompatible g1a g2a := by
  obtain ⟨-, -, h1q⟩ := sig_fields h1
  obtain ⟨-, -, h2q⟩ := sig_fields h2
  unfold areGearsCompatible
  rw [h1q, h2q]

theorem collectCandidates_congr {X Y : List Gear}
    (h : X.map sig = Y.map sig) : collectCandidates X = collectCandidates Y := by
  unfold collectCandidates
  rw [length_eq_of_map_proj sig h]
  apply List.filterMap_congr
  intro p hp
  have h1 := getElem?_map_proj sig h p.1
  have h2 := getElem?_map_proj sig h p.2
  cases hx1 : X[p.1]? with
  | none =>
    cases hy1 : Y[p.1]? with
    | none => rfl
    | some gy => rw [hx1, hy1] at h1; simp at h1
  | some gx =>
    cases hy1 : Y[p.1]? with
    | none => rw [hx1, hy1] at h1; simp at h1
    | some gy =>
      rw [hx1, hy1] at h1
      simp only [Option.map_some', Option.some.injEq] at h1
      cases hx2 : X[p.2]? with
      | none =>
        cases hy2 : Y[p.2]? with
        | none => rfl
        | some gy2 => rw [hx2, hy2] at h2; simp at h2
      | some gx2 =>
        cases hy2 : Y[p.2]? with
        | none => rw [hx2, hy2] at h2; simp at h2
        | some gy2 =>
          rw [hx2, hy2] at h2
          simp only [Option.map_some', Option.some.injEq] at h2
          obtain ⟨-, e1p, e1q⟩ := sig_fields h1
          obtain ⟨-, e2p, e2q⟩ := sig_fields h2
          simp only [idealDistance, e1p, e2p, e1q, e2q]

theorem find?_congr_on {α : Type} {p q : α → Bool} :
    ∀ l : List α, (∀ a ∈ l, p a = q a) → l.find? p = l.find? q := by
  intro l
  induction l with
  | nil => intro _; rfl
  | cons x xs ih =>
    intro h
    rw [List.find?_cons, List.find?_cons, h x (List.mem_cons_self x xs)]
    cases q x with
    | true => rfl
    | false => exact ih (fun a ha => h a (List.mem_cons_of_mem x ha))

theorem findOverlapPair_congr {X Y : List Gear}
    (h : X.map sig = Y.map sig) : findOverlapPair X = findOverlapPair Y := by
  unfold findOverlapPair
  rw [length_eq_of_map_proj sig h]
  apply find?_congr_on
  intro p hp
  have h1 := getElem?_map_proj sig h p.1
  have h2 := getElem?_map_proj sig h p.2
  cases hx1 : X[p.1]? with
  | none =>
    cases hy1 : Y[p.1]? with
    | none => rfl
    | some gy => rw [hx1, hy1] at h1; simp at h1
  | some gx =>
    cases hy1 : Y[p.1]? with
    | none => rw [hx1, hy1] at h1; simp at h1
    | some gy =>
      rw [hx1, hy1] at h1
      simp only [Option.map_some', Option.some.injEq] at h1
      cases hx2 : X[p.2]? with
      | none =>
        cases hy2 : Y[p.2]? with
        | none => rfl
        | some gy2 => rw [hx2, hy2] at h2; simp at h2
      | some gx2 =>
        cases hy2 : Y[p.2]? with
        | none => rw [hx2, hy2] at h2; simp at h2
        | some gy2 =>
          rw [hx2, hy2] at h2
          simp only [Option.map_some', Option.some.injEq] at h2
          exact checkGearsOverlap_congr h1 h2

/-! ### Stage-by-stage preservation of the geometric signature -/

theorem sig_clearIncompatibleState (g : Gear) :
    sig (clearIncompatibleState g) = sig g := by
  unfold clearIncompatibleState
  split <;> rfl

theorem sig_phase2Step (X : List Gear) (g : Gear) :
    sig (phase2Step X g) = sig g := by
  unfold phase2Step
  split
  · split
    · exact sig_clearIncompatibleState g
    · split
      · exact sig_clearIncompatibleState g
      · rfl
  · rfl

theorem map_sig_phase1 (X : List Gear) : (phase1 X).map sig = X.map sig := by
  unfold phase1
  rw [List.map_map]
  apply List.map_congr_left
  intro g _
  simp only [Function.comp_apply]
  split
  · exact sig_clearIncompatibleState g
  · rfl

theorem map_sig_phase2 (X : List Gear) : (phase2 X).map sig = X.map sig := by
  unfold phase2
  rw [List.map_map]
  apply List.map_congr_left
  intro g _
  simp only [Function.comp_apply]
  exact sig_phase2Step X g

theorem map_sig_clearConn (X : List Gear) :
    (X.map (fun g => { g with connectedTo := [] })).map sig = X.map sig := by
  rw [List.map_map]
  apply List.map_congr_left
  intro g _
  rfl

theorem connectGearsAt_map_proj {α : Type} (f : Gear → α)
    (hf : ∀ (g : Gear) (l : List ℕ), f { g with connectedTo := l } = f g)
    (X : List Gear) (i j : ℕ) (g1 g2 : Gear)
    (h1 : X[i]? = some g1) (h2 : X[j]? = some g2) :
    (connectGearsAt X i j g1 g2).map f = X.map f := by
  unfold connectGearsAt
  have hj : j < X.length := by
    by_contra hlt
    rw [List.getElem?_eq_none (by omega)] at h2
    exact Option.noConfusion h2
  rw [map_proj_set f _ j _ ?_, map_proj_set f X i _ ?_]
  · rw [h1, Option.map_some']
    exact congrArg some (hf g1 _).symm
  · by_cases hij : i = j
    · subst hij
      rw [List.getElem?_set_self (by simpa using hj), Option.map_some']
      have hg : g1 = g2 := by rw [h1] at h2; exact Option.some.inj h2
      subst hg
      rw [hf, hf]
    · rw [List.getElem?_set_ne hij, h2, Option.map_some']
      exact congrArg some (hf g2 _).symm

theorem connectLoop_map_proj {α : Type} (f : Gear → α)
    (hf : ∀ (g : Gear) (l : List ℕ), f { g with connectedTo := l } = f g) :
    ∀ (c : List (ℕ × ℕ × ℚ)) (X : List Gear) (jp : Option (ℕ × ℕ)),
      ((connectLoop c X jp).1).map f = X.map f := by
  intro c
  induction c with
  | nil => intro X jp; rfl
  | cons p rest ih =>
    intro X jp
    rw [connectLoop]
    cases h1 : X[p.1]? with
    | none => exact ih X jp
    | some g1 =>
      cases h2 : X[p.2.1]? with
      | none => exact ih X jp
      | some g2 =>
        by_cases hov : checkGearsOverlap g1 g2
        · simp only [hov, if_true]
          exact ih X jp
        · simp only [hov, if_false, Bool.false_eq_true, Bool.not_false]
          by_cases hcomp : areGearsCompatible g1 g2
          · simp only [hcomp, Bool.not_true, Bool.false_eq_true, if_false]
            by_cases hjam : wouldCauseJamming X g1 g2
            · simp only [hjam, if_true]
              exact ih X _
            · simp only [hjam, Bool.false_eq_true, if_false]
              rw [ih _ jp]
              exact connectGearsAt_map_proj f hf X p.1 p.2.1 g1 g2 h1 h2
          · simp only [hcomp, Bool.not_false, if_true]
            exact ih X jp

theorem setOverlapFields_sig (g : Gear) (t : ℕ) :
    sig (setOverlapFields g t) = sig g := rfl

theorem setJammingFields_sig (g : Gear) (t : ℕ) :
    sig (setJammingFields g t) = sig g := rfl

theorem setErrorAt_map_proj {α : Type} (f : Gear → α)
    (hf1 : ∀ (g : Gear) (t : ℕ), f (setOverlapFields g t) = f g)
    (hf2 : ∀ (g : Gear) (t : ℕ), f (setJammingFields g t) = f g)
    (X : List Gear) (sel : Option ℕ) (i j : ℕ) (b : Bool) :
    (setErrorAt X sel i j b).map f = X.map f := by
  unfold setErrorAt
  cases h1 : X[i]? with
  | none => rfl
  | some gi =>
    cases h2 : X[j]? with
    | none => rfl
    | some gj =>
      dsimp only
      by_cases hsi : sel = some gi.id
      · rw [if_pos hsi]
        cases b
        · rw [if_neg (by simp)]
          exact map_proj_set f X i _
            (by rw [h1, Option.map_some']; exact congrArg some (hf2 gi gj.id).symm)
        · rw [if_pos rfl]
          exact map_proj_set f X i _
            (by rw [h1, Option.map_some']; exact congrArg some (hf1 gi gj.id).symm)
      · by_cases hsj : sel = some gj.id
        · rw [if_neg hsi, if_pos hsj]
          cases b
          · rw [if_neg (by simp)]
            exact map_proj_set f X j _
              (by rw [h2, Option.map_some']; exact congrArg some (hf2 gj gi.id).symm)
          · rw [if_pos rfl]
            exact map_proj_set f X j _
              (by rw [h2, Option.map_some']; exact congrArg some (hf1 gj gi.id).symm)
        · rw [if_neg hsi, if_neg hsj]
          cases b
          · rw [if_neg (by simp)]
            exact map_proj_set f X i _
              (by rw [h1, Option.map_some']; exact congrArg some (hf2 gi gj.id).symm)
          · rw [if_pos rfl]
            exact map_proj_set f X i _
              (by rw [h1, Option.map_some']; exact congrArg some (hf1 gi gj.id).symm)

theorem applyError_map_proj {α : Type} (f : Gear → α)
    (hf1 : ∀ (g : Gear) (t : ℕ), f (setOverlapFields g t) = f g)
    (hf2 : ∀ (g : Gear) (t : ℕ), f (setJammingFields g t) = f g)
    (X : List Gear) (sel : Option ℕ) (op jp : Option (ℕ × ℕ)) :
    (applyError X sel op jp).map f = X.map f := by
  unfold applyError
  cases op with
  | some p => exact setErrorAt_map_proj f hf1 hf2 X sel p.1 p.2 true
  | none =>
    cases jp with
    | some p => exact setErrorAt_map_proj f hf1 hf2 X sel p.1 p.2 false
    | none => rfl

/-- The rebuild never changes a gear's id, position or parameters. -/
theorem updateConnections_map_sig (s : SimState) :
    (updateConnections s).gears.map sig = s.gears.map sig := by
  unfold updateConnections
  rw [applyError_map_proj sig (fun g t => rfl) (fun g t => rfl),
    connectLoop_map_proj sig (fun g l => rfl),
    map_sig_clearConn, map_sig_phase2, map_sig_phase1]

theorem findGear_id {X : List Gear} {t : ℕ} {g : Gear}
    (h : findGear X t = some g) : g.id = t := by
  have := List.find?_some h
  simpa using this

theorem findGear_setById {X : List Gear} {t : ℕ} {g : Gear} (v : Gear)
    (h : findGear X t = some g) (hv : v.id = g.id) :
    findGear (setById X t v) t = some v := by
  induction X with
  | nil => simp [findGear] at h
  | cons x xs ih =>
    unfold findGear at h ⊢
    by_cases hx : x.id = t
    · rw [List.find?_cons_of_pos _ (by simp [hx])] at h
      have hgx : x = g := Option.some.inj h
      unfold setById
      rw [if_pos (by rw [hx])]
      rw [List.find?_cons_of_pos _ (by simp [hv, hgx ▸ hx])]
    · rw [List.find?_cons_of_neg _ (by simp [hx])] at h
      unfold setById
      rw [if_neg hx]
      rw [List.find?_cons_of_neg _ (by simp [hx])]
      exact ih h

theorem clamp_bounds (lo hi x : ℚ) (h : lo ≤ hi) :
    lo ≤ clamp lo hi x ∧ clamp lo hi x ≤ hi :=
  ⟨le_max_left _ _, max_le h (min_le_left _ _)⟩

/-- C7, amended: `updateSelectedGearParams` clamps every requested parameter
into its allowed range and never rejects: the selected gear survives the
operation and its stored parameters all lie within bounds.  (`addGear`, by
contrast, stores the raw requested values; see the counterexample.) -/
theorem claim7_amended (s : SimState) (sid : ℕ) (g : Gear)
    (hsel : s.selectedGear = some sid) (hg : findGear s.gears sid = some g)
    (teeth0 m0 pa0 th0 bore0 : ℚ) :
    ∃ g2, findGear (updateSelectedGearParams s teeth0 m0 pa0 th0 bore0).gears sid =
        some g2 ∧
      8 ≤ g2.params.teeth ∧ g2.params.teeth ≤ 100 ∧
      1 / 2 ≤ g2.params.module ∧ g2.params.module ≤ 10 ∧
      29 / 2 ≤ g2.params.pressureAngle ∧ g2.params.pressureAngle ≤ 25 ∧
      1 ≤ g2.params.thickness ∧ g2.params.thickness ≤ 20 ∧
      1 ≤ g2.params.boreDiameter ∧ g2.params.boreDiameter ≤ 20 := by
  unfold updateSelectedGearParams
  rw [hsel]
  simp only [hg]
  set P : GearParams :=
    { teeth := clamp 8 100 teeth0, module := clamp (1 / 2) 10 m0,
      pressureAngle := clamp (29 / 2) 25 pa0, thickness := clamp 1 20 th0,
      boreDiameter := clamp 1 20 bore0,
      pitchDiameter := (mkGearGeometry (clamp 8 100 teeth0) (clamp (1 / 2) 10 m0)
        (clamp 1 20 th0) (clamp 1 20 bore0)).pitchDiameter } with hP
  set T : SimState :=
    { s with gears := setById s.gears sid { g with params := P },
             selectedGear := some sid } with hT
  have hfT : findGear T.gears sid = some { g with params := P } :=
    findGear_setById _ hg rfl
  have hmap : (updateConnections T).gears.map sig = T.gears.map sig :=
    updateConnections_map_sig T
  have hf := findGear_congr_proj sig (fun x y hxy => (sig_fields hxy).1) hmap sid
  rw [hfT] at hf
  cases hfu : findGear (updateConnections T).gears sid with
  | none => rw [hfu] at hf; simp at hf
  | some g2 =>
    rw [hfu] at hf
    simp only [Option.map_some', Option.some.injEq] at hf
    refine ⟨g2, rfl, ?_⟩
    have hparams : g2.params = P := (sig_fields hf).2.2
    rw [hparams]
    have c1 := clamp_bounds 8 100 teeth0 (by norm_num)
    have c2 := clamp_bounds (1 / 2) 10 m0 (by norm_num)
    have c3 := clamp_bounds (29 / 2) 25 pa0 (by norm_num)
    have c4 := clamp_bounds 1 20 th0 (by norm_num)
    have c5 := clamp_bounds 1 20 bore0 (by norm_num)
    exact ⟨c1.1, c1.2, c2.1, c2.2, c3.1, c3.2, c4.1, c4.2, c5.1, c5.2⟩

/-- C7, amended, witness: updating the selected gear of `selState` with the
out-of-range request `teeth = 200, module = 1/10` still yields in-bounds
stored parameters. -/
theorem claim7_amended_witness :
    ∃ g2, findGear (updateSelectedGearParams selState 200 (1 / 10) 5 30 25).gears 1 =
        some g2 ∧
      8 ≤ g2.params.teeth ∧ g2.params.teeth ≤ 100 ∧
      1 / 2 ≤ g2.params.module ∧ g2.params.module ≤ 10 ∧
      29 / 2 ≤ g2.params.pressureAngle ∧ g2.params.pressureAngle ≤ 25 ∧
      1 ≤ g2.params.thickness ∧ g2.params.thickness ≤ 20 ∧
      1 ≤ g2.params.boreDiameter ∧ g2.params.boreDiameter ≤ 20 :=
  claim7_amended selState 1 (sampleGear 1 20 40 true ⟨0, 0, 0⟩) rfl (by decide)
    200 (1 / 10) 5 30 25

/-! ### Walks, and which gears the kinematics propagation touches -/

theorem AdjWalk.snoc {gears : List Gear} {u v w : ℕ} {n : ℕ}
    (hw : AdjWalk gears u v n) (h : w ∈ adj gears v) :
    AdjWalk gears u w (n + 1) := by
  induction hw with
  | refl u => exact AdjWalk.step h (AdjWalk.refl w)
  | step h2 hw2 ih => exact AdjWalk.step h2 (ih h)

theorem AdjWalk.congr {X Y : List Gear} (h : ∀ i, adj X i = adj Y i)
    {u v : ℕ} {n : ℕ} (hw : AdjWalk X u v n) : AdjWalk Y u v n := by
  induction hw with
  | refl u => exact AdjWalk.refl u
  | step h2 _ ih => exact AdjWalk.step (h _ ▸ h2) ih

theorem setById_map_proj {α : Type} (f : Gear → α) :
    ∀ (X : List Gear) (t : ℕ) (v : Gear),
      (∀ g, findGear X t = some g → f v = f g) →
      (setById X t v).map f = X.map f := by
  intro X
  induction X with
  | nil => intro t v _; rfl
  | cons x xs ih =>
    intro t v h
    by_cases hx : x.id = t
    · unfold setById
      rw [if_pos hx]
      have hfind : findGear (x :: xs) t = some x := by
        unfold findGear
        rw [List.find?_cons_of_pos _ (by simp [hx])]
      simp [h x hfind]
    · unfold setById
      rw [if_neg hx]
      have step : ∀ g, findGear xs t = some g → f v = f g := by
        intro g hg
        apply h
        unfold findGear at hg ⊢
        rw [List.find?_cons_of_neg _ (by simp [hx])]
        exact hg
      simp [ih t v step]

theorem setById_getElem?_ne :
    ∀ (X : List Gear) (t : ℕ) (v : Gear) (k : ℕ) (g : Gear),
      X[k]? = some g → g.id ≠ t → (setById X t v)[k]? = some g := by
  intro X
  induction X with
  | nil => intro t v k g hk; simp at hk
  | cons x xs ih =>
    intro t v k g hk hne
    by_cases hx : x.id = t
    · unfold setById
      rw [if_pos hx]
      cases k with
      | zero =>
        simp only [List.getElem?_cons_zero, Option.some.injEq] at hk
        exact absurd (hk ▸ hx) hne
      | succ n => simpa using (by simpa using hk : xs[n]? = some g)
    · unfold setById
      rw [if_neg hx]
      cases k with
      | zero => simpa using hk
      | succ n =>
        simp only [List.getElem?_cons_succ] at hk ⊢
        exact ih t v n g hk hne

theorem visitNeighbors_map_connSig (cur : Gear) :
    ∀ (l : List ℕ) (X : List Gear) (vis : Finset ℕ),
      ((visitNeighbors cur X vis l).1).map connSig = X.map connSig := by
  intro l
  induction l with
  | nil => intro X vis; rfl
  | cons cid rest ih =>
    intro X vis
    unfold visitNeighbors
    by_cases hv : cid ∈ vis
    · rw [if_pos hv]
      exact ih X vis
    · rw [if_neg hv]
      cases hf : findGear X cid with
      | none => exact ih X _
      | some connected =>
        dsimp only
        rw [ih _ _]
        apply setById_map_proj
        intro g hg
        rw [hf] at hg
        have : connected = g := Option.some.inj hg
        subst this
        rfl

theorem visitNeighbors_sub (cur : Gear) :
    ∀ (l : List ℕ) (X : List Gear) (vis : Finset ℕ),
      ∀ n ∈ (visitNeighbors cur X vis l).2, n ∈ l := by
  intro l
  induction l with
  | nil => intro X vis n hn; simp [visitNeighbors] at hn
  | cons cid rest ih =>
    intro X vis n hn
    unfold visitNeighbors at hn
    by_cases hv : cid ∈ vis
    · rw [if_pos hv] at hn
      exact List.mem_cons_of_mem _ (ih X vis n hn)
    · rw [if_neg hv] at hn
      cases hf : findGear X cid with
      | none =>
        rw [hf] at hn
        dsimp only at hn
        rcases List.mem_cons.mp hn with h | h
        · exact h ▸ List.mem_cons_self _ _
        · exact List.mem_cons_of_mem _ (ih X _ n h)
      | some connected =>
        rw [hf] at hn
        dsimp only at hn
        rcases List.mem_cons.mp hn with h | h
        · exact h ▸ List.mem_cons_self _ _
        · exact List.mem_cons_of_mem _ (ih _ _ n h)

theorem visitNeighbors_untouched (cur : Gear) :
    ∀ (l : List ℕ) (X : List Gear) (vis : Finset ℕ) (k : ℕ) (g : Gear),
      X[k]? = some g → (∀ cid ∈ l, cid ≠ g.id) →
      ((visitNeighbors cur X vis l).1)[k]? = some g := by
  intro l
  induction l with
  | nil => intro X vis k g hk _; exact hk
  | cons cid rest ih =>
    intro X vis k g hk hl
    unfold visitNeighbors
    by_cases hv : cid ∈ vis
    · rw [if_pos hv]
      exact ih X vis k g hk (fun c hc => hl c (List.mem_cons_of_mem _ hc))
    · rw [if_neg hv]
      cases hf : findGear X cid with
      | none => exact ih X _ k g hk (fun c hc => hl c (List.mem_cons_of_mem _ hc))
      | some connected =>
        dsimp only
        apply ih _ _ k g
        · exact setById_getElem?_ne X cid _ k g hk
            (fun h => hl cid (List.mem_cons_self _ _) h.symm)
        · exact fun c hc => hl c (List.mem_cons_of_mem _ hc)

/-- Gears whose id is not reachable from any queued id are never modified by
the propagation BFS. -/
theorem propagate_unreach_untouched (X0 : List Gear) (R : ℕ → Prop)
    (hR : ∀ u v, R u → v ∈ adj X0 u → R v) :
    ∀ (fuel : ℕ) (X : List Gear) (queue : List ℕ) (vis : Finset ℕ)
      (k : ℕ) (g : Gear),
      X.map connSig = X0.map connSig →
      (∀ q ∈ queue, R q) →
      X[k]? = some g → ¬ R g.id →
      (propagate fuel X queue vis)[k]? = some g := by
  intro fuel
  induction fuel with
  | zero =>
    intro X queue vis k g _ _ hk _
    cases queue <;> exact hk
  | succ fuel ih =>
    intro X queue vis k g hconn hq hk hg
    cases queue with
    | nil => exact hk
    | cons gid rest =>
      rw [propagate]
      cases hf : findGear X gid with
      | none => exact ih X rest vis k g hconn (fun q hq2 => hq q (List.mem_cons_of_mem _ hq2)) hk hg
      | some current =>
        dsimp only
        have hcid : current.id = gid := findGear_id hf
        have hadjX : adj X gid = current.connectedTo := by
          unfold adj
          rw [hf]
          rfl
        have hconn2 : ∀ c ∈ current.connectedTo, R c := by
          intro c hc
          apply hR gid c (hq gid (List.mem_cons_self _ _))
          rw [← adj_congr hconn gid, hadjX]
          exact hc
        apply ih
        · rw [visitNeighbors_map_connSig, hconn]
        · intro q hq2
          rcases List.mem_append.mp hq2 with h | h
          · exact hq q (List.mem_cons_of_mem _ h)
          · exact hconn2 q (visitNeighbors_sub current _ X vis q h)
        · exact visitNeighbors_untouched current _ X vis k g hk
            (fun c hc hcg => hg (hcg ▸ hconn2 c hc))
        · exact hg

theorem visitNeighbors_vis_untouched (cur : Gear) :
    ∀ (l : List ℕ) (X : List Gear) (vis : Finset ℕ) (k : ℕ) (g : Gear),
      X[k]? = some g → g.id ∈ vis →
      ((visitNeighbors cur X vis l).1)[k]? = some g := by
  intro l
  induction l with
  | nil => intro X vis k g hk _; exact hk
  | cons cid rest ih =>
    intro X vis k g hk hg
    unfold visitNeighbors
    by_cases hv : cid ∈ vis
    · rw [if_pos hv]
      exact ih X vis k g hk hg
    · rw [if_neg hv]
      cases hf : findGear X cid with
      | none => exact ih X _ k g hk (Finset.mem_insert_of_mem hg)
      | some connected =>
        dsimp only
        apply ih _ _ k g
        · exact setById_getElem?_ne X cid _ k g hk (fun h => hv (h ▸ hg))
        · exact Finset.mem_insert_of_mem hg

theorem propagate_vis_untouched :
    ∀ (fuel : ℕ) (X : List Gear) (queue : List ℕ) (vis : Finset ℕ)
      (k : ℕ) (g : Gear),
      X[k]? = some g → g.id ∈ vis →
      (propagate fuel X queue vis)[k]? = some g := by
  intro fuel
  induction fuel with
  | zero =>
    intro X queue vis k g hk _
    cases queue <;> exact hk
  | succ fuel ih =>
    intro X queue vis k g hk hg
    cases queue with
    | nil => exact hk
    | cons gid rest =>
      rw [propagate]
      cases hf : findGear X gid with
      | none => exact ih X rest vis k g hk hg
      | some current =>
        dsimp only
        exact ih _ _ _ k g
          (visitNeighbors_vis_untouched current _ X vis k g hk hg)
          (Finset.mem_union_left _ hg)

theorem propagate_length :
    ∀ (fuel : ℕ) (X : List Gear) (queue : List ℕ) (vis : Finset ℕ),
      (propagate fuel X queue vis).length = X.length := by
  intro fuel
  induction fuel with
  | zero => intro X queue vis; cases queue <;> rfl
  | succ fuel ih =>
    intro X queue vis
    cases queue with
    | nil => rfl
    | cons gid rest =>
      rw [propagate]
      cases hf : findGear X gid with
      | none => exact ih X rest vis
      | some current =>
        dsimp only
        rw [ih]
        have h := visitNeighbors_map_connSig current current.connectedTo X vis
        rw [← List.length_map _ connSig, h, List.length_map]

/-- C4, amended: speed propagation never modifies a gear unreachable from
the driver through `connectedTo` edges — so such a gear keeps its previous
rpm (which is `0` only if it was never driven before). -/
theorem claim4_amended (s : SimState) (driver : Gear)
    (hdrv : (s.gears.find? (fun g => g.isDriver)).orElse
      (fun _ => s.gears.head?) = some driver)
    (hres : findGear s.gears driver.id = some driver)
    (k : ℕ) (g : Gear) (hk : s.gears[k]? = some g)
    (hunreach : ∀ n, ¬ AdjWalk s.gears driver.id g.id n) :
    (calculateGearSpeeds s).gears[k]? = some g := by
  unfold calculateGearSpeeds
  rw [hdrv]
  dsimp only
  have hgid : g.id ≠ driver.id := by
    intro h
    exact hunreach 0 (by rw [h]; exact AdjWalk.refl _)
  have hk1 : (setById s.gears driver.id
      { driver with rpm := s.inputRPM, rotationDirection := 1 })[k]? = some g :=
    setById_getElem?_ne _ _ _ _ _ hk hgid
  have hconn1 : (setById s.gears driver.id
      { driver with rpm := s.inputRPM, rotationDirection := 1 }).map connSig =
      s.gears.map connSig := by
    apply setById_map_proj
    intro g2 hg2
    rw [hres] at hg2
    cases Option.some.inj hg2
    rfl
  apply propagate_unreach_untouched _
    (fun i => ∃ n, AdjWalk s.gears driver.id i n)
  · intro u v hu hv
    obtain ⟨n, hw⟩ := hu
    exact ⟨n + 1, hw.snoc (by rw [← adj_congr hconn1 u]; exact hv)⟩
  · rfl
  · intro q hq
    rcases List.mem_singleton.mp hq with rfl
    exact ⟨0, AdjWalk.refl _⟩
  · exact hk1
  · intro hreach
    obtain ⟨n, hw⟩ := hreach
    exact hunreach n hw

/-- C4, amended, witness: in a scene of two unconnected gears, propagation
leaves the second gear (unreachable from the driver) exactly as it was. -/
theorem claim4_amended_witness :
    (calculateGearSpeeds abState).gears[1]? =
      some (sampleGear 2 30 60 false ⟨50, 0, 0⟩) :=
  claim4_amended abState (sampleGear 1 20 40 true ⟨0, 0, 0⟩) (by decide)
    (by decide) 1 (sampleGear 2 30 60 false ⟨50, 0, 0⟩) (by decide)
    (by
      intro n h
      cases h with
      | step h2 hw =>
        have hadj : adj abState.gears
            (sampleGear 1 20 40 true ⟨0, 0, 0⟩).id = [] := by decide
        rw [hadj] at h2
        simp at h2)

/-- C10: with no gear marked as driver, `calculateGearSpeeds` falls back to
the first gear in insertion order: it is a no-op on the empty registry, and
otherwise seeds the first gear with the input RPM and direction `+1` and
propagates from it. -/
theorem claim10_driver_fallback (s : SimState)
    (hnd : ∀ g ∈ s.gears, g.isDriver = false) :
    (s.gears = [] → calculateGearSpeeds s = s) ∧
    (∀ g0 tl, s.gears = g0 :: tl →
      ∃ tl2, (calculateGearSpeeds s).gears =
        { g0 with rpm := s.inputRPM, rotationDirection := 1 } :: tl2) := by
  have hfind : s.gears.find? (fun g => g.isDriver) = none := by
    apply List.find?_eq_none.mpr
    intro x hx
    simp [hnd x hx]
  constructor
  · intro hempty
    unfold calculateGearSpeeds
    rw [hfind, hempty]
    rfl
  · intro g0 tl hcons
    have horelse : (s.gears.find? (fun g => g.isDriver)).orElse
        (fun _ => s.gears.head?) = some g0 := by
      rw [hfind, hcons]
      rfl
    unfold calculateGearSpeeds
    rw [horelse]
    dsimp only
    have hset : setById s.gears g0.id
        { g0 with rpm := s.inputRPM, rotationDirection := 1 } =
        { g0 with rpm := s.inputRPM, rotationDirection := 1 } :: tl := by
      rw [hcons]
      unfold setById
      rw [if_pos rfl]
    rw [hset]
    have hP := propagate_vis_untouched
      (totalAdj ({ g0 with rpm := s.inputRPM, rotationDirection := 1 } :: tl) + 1)
      ({ g0 with rpm := s.inputRPM, rotationDirection := 1 } :: tl)
      [g0.id] {g0.id} 0
      { g0 with rpm := s.inputRPM, rotationDirection := 1 }
      (by simp) (Finset.mem_singleton.mpr rfl)
    cases hPP : propagate
        (totalAdj ({ g0 with rpm := s.inputRPM, rotationDirection := 1 } :: tl) + 1)
        ({ g0 with rpm := s.inputRPM, rotationDirection := 1 } :: tl)
        [g0.id] {g0.id} with
    | nil => rw [hPP] at hP; simp at hP
    | cons a l2 =>
      rw [hPP] at hP
      simp only [List.getElem?_cons_zero, Option.some.injEq] at hP
      exact ⟨l2, by rw [hP]⟩

/-! ### Correctness of the jamming breadth-first search (C1) -/

theorem mem_adjTargets_of {g : Gear} {v : ℕ} :
    ∀ (gears : List Gear), g ∈ gears → v ∈ g.connectedTo →
      v ∈ adjTargets gears := by
  intro gears
  induction gears with
  | nil => intro hg _; simp at hg
  | cons x xs ih =>
    intro hg hv
    unfold adjTargets
    rcases List.mem_cons.mp hg with rfl | hx
    · exact Finset.mem_union_left _ (List.mem_toFinset.mpr hv)
    · exact Finset.mem_union_right _ (ih hx hv)

theorem adjTargets_mem {gears : List Gear} {u v : ℕ} (h : v ∈ adj gears u) :
    v ∈ adjTargets gears := by
  unfold adj at h
  cases hf : findGear gears u with
  | none => rw [hf] at h; simp at h
  | some g =>
    rw [hf] at h
    simp only [Option.map_some', Option.getD_some] at h
    exact mem_adjTargets_of gears (List.mem_of_find?_eq_some hf) h

theorem adjTargets_card_le (gears : List Gear) :
    (adjTargets gears).card ≤ totalAdj gears := by
  induction gears with
  | nil => simp [adjTargets, totalAdj]
  | cons x xs ih =>
    have hx := x.connectedTo.toFinset_card_le
    have hu := Finset.card_union_le x.connectedTo.toFinset (adjTargets xs)
    have hcons : adjTargets (x :: xs) = x.connectedTo.toFinset ∪ adjTargets xs :=
      rfl
    have ht : totalAdj (x :: xs) = x.connectedTo.length + totalAdj xs := by
      simp [totalAdj]
    rw [hcons, ht]
    omega

theorem freshNeighbors_mem :
    ∀ (l : List ℕ) (vis : Finset ℕ) (n : ℕ),
      n ∈ freshNeighbors vis l → n ∈ l ∧ n ∉ vis := by
  intro l
  induction l with
  | nil => intro vis n h; simp [freshNeighbors] at h
  | cons m ms ih =>
    intro vis n h
    unfold freshNeighbors at h
    by_cases hm : m ∈ vis
    · rw [if_pos hm] at h
      obtain ⟨h1, h2⟩ := ih vis n h
      exact ⟨List.mem_cons_of_mem _ h1, h2⟩
    · rw [if_neg hm] at h
      rcases List.mem_cons.mp h with rfl | h2
      · exact ⟨List.mem_cons_self _ _, hm⟩
      · obtain ⟨h3, h4⟩ := ih _ n h2
        refine ⟨List.mem_cons_of_mem _ h3, fun hv => h4 ?_⟩
        exact Finset.mem_insert_of_mem hv

theorem freshNeighbors_nodup :
    ∀ (l : List ℕ) (vis : Finset ℕ), (freshNeighbors vis l).Nodup := by
  intro l
  induction l with
  | nil => intro vis; simp [freshNeighbors]
  | cons m ms ih =>
    intro vis
    unfold freshNeighbors
    by_cases hm : m ∈ vis
    · rw [if_pos hm]; exact ih vis
    · rw [if_neg hm]
      refine List.Nodup.cons ?_ (ih _)
      intro hmem
      exact (freshNeighbors_mem ms _ m hmem).2 (Finset.mem_insert_self m vis)

theorem freshNeighbors_covers :
    ∀ (l : List ℕ) (vis : Finset ℕ) (m : ℕ),
      m ∈ l → m ∈ vis ∨ m ∈ freshNeighbors vis l := by
  intro l
  induction l with
  | nil => intro vis m h; simp at h
  | cons a as ih =>
    intro vis m h
    unfold freshNeighbors
    by_cases ha : a ∈ vis
    · rw [if_pos ha]
      rcases List.mem_cons.mp h with rfl | h2
      · exact Or.inl ha
      · exact ih vis m h2
    · rw [if_neg ha]
      rcases List.mem_cons.mp h with rfl | h2
      · exact Or.inr (List.mem_cons_self _ _)
      · rcases ih (insert a vis) m h2 with hv | hf
        · rcases Finset.mem_insert.mp hv with rfl | hv2
          · exact Or.inr (List.mem_cons_self _ _)
          · exact Or.inl hv2
        · exact Or.inr (List.mem_cons_of_mem _ hf)

theorem walk_end_mem {gears : List Gear} {S : Finset ℕ}
    (hS : ∀ v ∈ S, ∀ w ∈ adj gears v, w ∈ S) {u v : ℕ} {n : ℕ}
    (hw : AdjWalk gears u v n) (hu : u ∈ S) : v ∈ S := by
  induction hw with
  | refl u => exact hu
  | step h hw2 ih => exact ih (hS _ hu _ h)

theorem walk_parity {gears : List Gear} {c : ℕ → Bool}
    (hc : ∀ u v, v ∈ adj gears u → c u ≠ c v) {u v : ℕ} {n : ℕ}
    (hw : AdjWalk gears u v n) : (c u = c v ↔ n % 2 = 0) := by
  induction hw with
  | refl u => simp
  | step h hw2 ih =>
    rename_i u2 v2 w2 n2
    have hne := hc _ _ h
    constructor
    · intro huw
      have hvw : ¬(c v2 = c w2) := fun hvw => hne (huw.trans hvw.symm)
      have : ¬(n2 % 2 = 0) := fun h2 => hvw (ih.mpr h2)
      omega
    · intro hmod
      have hn2 : ¬(n2 % 2 = 0) := by omega
      have hvw : ¬(c v2 = c w2) := fun h2 => hn2 (ih.mp h2)
      cases hcu : c u2 <;> cases hcv : c v2 <;> cases hcw : c w2 <;>
        simp_all

theorem no_walk_of_closed {gears : List Gear} {g1 g2 : ℕ} {S : Finset ℕ}
    (hclosed : ∀ v ∈ S, ∀ w ∈ adj gears v, w ∈ S)
    (h1 : g1 ∈ S) (h2 : g2 ∉ S) : ∀ n, ¬ AdjWalk gears g1 g2 n := by
  intro n hw
  exact h2 (walk_end_mem hclosed hw h1)

/-- Invariant-based correctness of the jamming BFS: a `true` answer produces
an even-length walk between the endpoints, a `false` answer either an
odd-length walk (even closing cycle) or a proof that no walk exists. -/
theorem jamSearch_main (gears : List Gear) (g1 g2 : ℕ) :
    ∀ (fuel : ℕ) (queue : List (ℕ × ℕ)) (visited : Finset ℕ),
      (∀ p ∈ queue, AdjWalk gears g1 p.1 p.2) →
      g1 ∈ visited →
      g2 ∉ visited →
      (∀ v ∈ visited, (∃ d, (v, d) ∈ queue) ∨ (∀ w ∈ adj gears v, w ∈ visited)) →
      visited ⊆ insert g1 (adjTargets gears) →
      queue.length + 1 + totalAdj gears ≤ fuel + visited.card →
      ((jamSearch gears g2 fuel queue visited = true →
          ∃ n, AdjWalk gears g1 g2 n ∧ n % 2 = 0) ∧
        (jamSearch gears g2 fuel queue visited = false →
          (∃ n, AdjWalk gears g1 g2 n ∧ n % 2 = 1) ∨
          (∀ n, ¬ AdjWalk gears g1 g2 n))) := by
  intro fuel
  have hcard : ∀ visited : Finset ℕ, visited ⊆ insert g1 (adjTargets gears) →
      visited.card ≤ 1 + totalAdj gears := by
    intro visited hsub
    calc visited.card ≤ (insert g1 (adjTargets gears)).card :=
          Finset.card_le_card hsub
      _ ≤ (adjTargets gears).card + 1 := Finset.card_insert_le _ _
      _ ≤ 1 + totalAdj gears := by
          have := adjTargets_card_le gears
          omega
  induction fuel with
  | zero =>
    intro queue visited hq h1 h2 hproc hsub hfuel
    cases queue with
    | nil =>
      refine ⟨fun h => absurd h (by simp [jamSearch]), fun _ => Or.inr ?_⟩
      have hclosed : ∀ v ∈ visited, ∀ w ∈ adj gears v, w ∈ visited := by
        intro v hv w hw
        rcases hproc v hv with ⟨d, hd⟩ | hcl
        · simp at hd
        · exact hcl w hw
      exact no_walk_of_closed hclosed h1 h2
    | cons p rest =>
      have := hcard visited hsub
      simp only [List.length_cons] at hfuel
      omega
  | succ fuel ih =>
    intro queue visited hq h1 h2 hproc hsub hfuel
    cases queue with
    | nil =>
      refine ⟨fun h => absurd h (by simp [jamSearch]), fun _ => Or.inr ?_⟩
      have hclosed : ∀ v ∈ visited, ∀ w ∈ adj gears v, w ∈ visited := by
        intro v hv w hw
        rcases hproc v hv with ⟨d, hd⟩ | hcl
        · simp at hd
        · exact hcl w hw
      exact no_walk_of_closed hclosed h1 h2
    | cons p rest =>
      obtain ⟨gid, depth⟩ := p
      have hwgid : AdjWalk gears g1 gid depth := hq _ (List.mem_cons_self _ _)
      rw [jamSearch]
      by_cases hmem : g2 ∈ adj gears gid
      · rw [if_pos hmem]
        have hwalk : AdjWalk gears g1 g2 (depth + 1) := hwgid.snoc hmem
        constructor
        · intro h
          have hp := of_decide_eq_true h
          exact ⟨depth + 1, hwalk, by omega⟩
        · intro h
          have hp := of_decide_eq_false h
          exact Or.inl ⟨depth + 1, hwalk, by omega⟩
      · rw [if_neg hmem]
        dsimp only
        apply ih
        · intro p hp
          rcases List.mem_append.mp hp with hrest | hfresh
          · exact hq p (List.mem_cons_of_mem _ hrest)
          · obtain ⟨n, hn, rfl⟩ := List.mem_map.mp hfresh
            exact hwgid.snoc (freshNeighbors_mem _ _ n hn).1
        · exact Finset.mem_union_left _ h1
        · intro hg2
          rcases Finset.mem_union.mp hg2 with hv | hf
          · exact h2 hv
          · exact hmem (freshNeighbors_mem _ _ g2 (List.mem_toFinset.mp hf)).1
        · intro v hv
          rcases Finset.mem_union.mp hv with hvold | hvnew
          · rcases hproc v hvold with ⟨d, hd⟩ | hcl
            · rcases List.mem_cons.mp hd with heq | hdrest
              · obtain ⟨rfl, -⟩ : v = gid ∧ d = depth :=
                  ⟨congrArg Prod.fst heq, congrArg Prod.snd heq⟩
                refine Or.inr (fun w hw => ?_)
                rcases freshNeighbors_covers _ visited w hw with hc | hc
                · exact Finset.mem_union_left _ hc
                · exact Finset.mem_union_right _ (List.mem_toFinset.mpr hc)
              · exact Or.inl ⟨d, List.mem_append_left _ hdrest⟩
            · exact Or.inr (fun w hw => Finset.mem_union_left _ (hcl w hw))
          · have hvf := List.mem_toFinset.mp hvnew
            exact Or.inl ⟨depth + 1,
              List.mem_append_right _ (List.mem_map.mpr ⟨v, hvf, rfl⟩)⟩
        · intro v hv
          rcases Finset.mem_union.mp hv with hvold | hvnew
          · exact hsub hvold
          · exact Finset.mem_insert_of_mem
              (adjTargets_mem (freshNeighbors_mem _ _ v
                (List.mem_toFinset.mp hvnew)).1)
        · have hdisj : Disjoint visited
              (freshNeighbors visited (adj gears gid)).toFinset := by
            rw [Finset.disjoint_right]
            intro a ha
            exact (freshNeighbors_mem _ _ a (List.mem_toFinset.mp ha)).2
          rw [Finset.card_union_of_disjoint hdisj,
            List.toFinset_card_of_nodup (freshNeighbors_nodup _ _)]
          simp only [List.length_append, List.length_map, List.length_cons] at hfuel ⊢
          omega

/-- C1: for distinct registered gears over a 2-colorable connectivity graph
(every graph the engine builds is one, since only even cycles are closed),
`wouldCauseJamming` answers `true` exactly when a path between the two gears
already exists whose edge count plus one — the closing cycle length — is
odd.  In particular, in the triangle scene the rebuild connects A-B and B-C
but refuses A-C as jamming (cycle length 3) and flags it, while the square
scene closes the even 4-cycle A-B-C-D-A completely. -/
theorem claim1_jamming_parity :
    (∀ (gears : List Gear) (g1 g2 : Gear) (c : ℕ → Bool),
      findGear gears g1.id = some g1 →
      findGear gears g2.id = some g2 →
      g1.id ≠ g2.id →
      (∀ g ∈ gears, ∀ v ∈ g.connectedTo, c g.id ≠ c v) →
      (wouldCauseJamming gears g1 g2 = true ↔
        ∃ n, AdjWalk gears g1.id g2.id n ∧ (n + 1) % 2 = 1)) ∧
    (((updateConnections triState).gears.map
        (fun g => (g.id, g.connectedTo, g.jammingError, g.incompatibleWith))) =
      [(1, [2], true, some 3), (2, [1, 3], false, none), (3, [2], false, none)]) ∧
    (((updateConnections squareState).gears.map
        (fun g => (g.id, g.connectedTo, g.jammingError))) =
      [(1, [2, 4], false), (2, [1, 3], false), (3, [2, 4], false),
        (4, [1, 3], false)]) := by
  refine ⟨?_, by decide, by decide⟩
  intro gears g1 g2 c hres1 hres2 hne hcolor
  have hc : ∀ u v, v ∈ adj gears u → c u ≠ c v := by
    intro u v hv
    unfold adj at hv
    cases hf : findGear gears u with
    | none => rw [hf] at hv; simp at hv
    | some g =>
      rw [hf] at hv
      simp only [Option.map_some', Option.getD_some] at hv
      have := findGear_id hf
      subst this
      exact hcolor g (List.mem_of_find?_eq_some hf) v hv
  unfold wouldCauseJamming
  by_cases hempty : g1.connectedTo.isEmpty && g2.connectedTo.isEmpty
  · rw [if_pos hempty]
    have hadj1 : adj gears g1.id = [] := by
      unfold adj
      rw [hres1]
      simp only [Option.map_some', Option.getD_some]
      exact List.isEmpty_iff.mp (Bool.and_elim_left hempty)
    constructor
    · intro h
      exact absurd h (by simp)
    · rintro ⟨n, hw, hn⟩
      have hclosed : ∀ v ∈ ({g1.id} : Finset ℕ), ∀ w ∈ adj gears v,
          w ∈ ({g1.id} : Finset ℕ) := by
        intro v hv w hw2
        rcases Finset.mem_singleton.mp hv with rfl
        rw [hadj1] at hw2
        simp at hw2
      exact (no_walk_of_closed hclosed (Finset.mem_singleton_self _)
        (fun h => hne (Finset.mem_singleton.mp h).symm) n hw).elim
  · rw [if_neg hempty]
    have hmain := jamSearch_main gears g1.id g2.id (totalAdj gears + 1)
      [(g1.id, 0)] {g1.id}
      (by
        intro p hp
        rcases List.mem_singleton.mp hp with rfl
        exact AdjWalk.refl _)
      (Finset.mem_singleton_self _)
      (by
        intro h
        exact hne (Finset.mem_singleton.mp h).symm)
      (by
        intro v hv
        rcases Finset.mem_singleton.mp hv with rfl
        exact Or.inl ⟨0, List.mem_singleton_self _⟩)
      (by
        intro v hv
        rcases Finset.mem_singleton.mp hv with rfl
        exact Finset.mem_insert_self _ _)
      (by simp only [List.length_cons, List.length_nil, Finset.card_singleton]
          omega)
    constructor
    · intro h
      obtain ⟨n, hw, hmod⟩ := hmain.1 h
      exact ⟨n, hw, by omega⟩
    · rintro ⟨n, hw, hmod⟩
      by_contra hfalse
      have hf2 : jamSearch gears g2.id (totalAdj gears + 1)
          [(g1.id, 0)] {g1.id} = false := by
        cases hj : jamSearch gears g2.id (totalAdj gears + 1)
            [(g1.id, 0)] {g1.id}
        · rfl
        · exact absurd hj hfalse
      rcases hmain.2 hf2 with ⟨m, hw2, hm2⟩ | hnone
      · have hp1 := (walk_parity hc hw).mp
        have hp2 := (walk_parity hc hw2).mpr
        have hcc : c g1.id = c g2.id := by
          apply (walk_parity hc hw).mpr
          omega
        have := (walk_parity hc hw2).mp hcc
        omega
      · exact hnone n hw

/-- C1, witness: on the already-built chain A-B-C (edges 1-2, 2-3), a direct
A-C connection closes an odd (length-3) cycle: `wouldCauseJamming` answers
`true`, obtained from the parity characterisation with the explicit
2-colouring by id parity and the explicit 2-edge walk. -/
theorem claim1_witness :
    wouldCauseJamming jamGraphGears
      ({ sampleGear 1 25 50 true ⟨0, 0, 0⟩ with connectedTo := [2] })
      ({ sampleGear 3 25 50 false ⟨26, 44, 0⟩ with connectedTo := [2] }) = true := by
  apply (claim1_jamming_parity.1 jamGraphGears
      ({ sampleGear 1 25 50 true ⟨0, 0, 0⟩ with connectedTo := [2] })
      ({ sampleGear 3 25 50 false ⟨26, 44, 0⟩ with connectedTo := [2] })
      (fun i => decide (i % 2 = 0))
      (by decide) (by decide) (by decide) (by decide)).mpr
  refine ⟨2, ?_, by decide⟩
  have h1 : (2 : ℕ) ∈ adj jamGraphGears
      ({ sampleGear 1 25 50 true ⟨0, 0, 0⟩ with connectedTo := [2] } : Gear).id := by
    decide
  have h2 : (3 : ℕ) ∈ adj jamGraphGears 2 := by decide
  exact AdjWalk.step h1 (AdjWalk.step h2 (AdjWalk.refl 3))

/-- C10, witness: in a two-gear scene with no driver, the fallback seeds the
first gear with 30 RPM and direction `+1`; the empty-registry clause holds
vacuously. -/
theorem claim10_witness :
    (noDriverState.gears = [] →
      calculateGearSpeeds noDriverState = noDriverState) ∧
    (∀ g0 tl, noDriverState.gears = g0 :: tl →
      ∃ tl2, (calculateGearSpeeds noDriverState).gears =
        { g0 with rpm := noDriverState.inputRPM, rotationDirection := 1 } :: tl2) :=
  claim10_driver_fallback noDriverState (by decide)

/-- C2: speed propagation over the rebuilt chain A-B-C with 20/30/15 teeth
driven at 30 RPM.  The rebuild connects exactly the chain edges, and
propagation yields `B.rpm = 20`, `C.rpm = 40` with alternating directions
`A:+1, B:-1, C:+1` (the per-edge rule `rpm * teeth₁/teeth₂`, flipped sign). -/
theorem claim2_chain_speeds :
    ((updateConnections chainState).gears.map
      (fun g => (g.id, g.connectedTo)) = [(1, [2]), (2, [3, 1]), (3, [2])]) ∧
    ((calculateGearSpeeds (updateConnections chainState)).gears.map
      (fun g => (g.id, g.rpm, g.rotationDirection))) =
      [(1, 30, 1), (2, 20, -1), (3, 40, 1)] := by
  decide

/-- C3: `play` is a no-op (no flag set, no propagation, no field changed)
exactly while some gear carries a jamming error; otherwise it sets the
playing flag and runs the propagation. -/
theorem claim3_play_refuses_on_jamming (s : SimState) :
    ((∃ g ∈ s.gears, g.jammingError = true) → play s = s) ∧
    ((∀ g ∈ s.gears, g.jammingError = false) →
      play s = calculateGearSpeeds { s with isPlaying := true }) := by
  constructor
  · intro h
    have ha : s.gears.any (fun g => g.jammingError) = true := by
      rcases h with ⟨g, hg, hj⟩
      exact List.any_eq_true.mpr ⟨g, hg, hj⟩
    simp [play, ha]
  · intro h
    have ha : s.gears.any (fun g => g.jammingError) = false := by
      rw [List.any_eq_false]
      intro g hg
      simp [h g hg]
    simp [play, ha]

/-- C3, witness: on a scene with a jammed gear, `play` changes nothing. -/
theorem claim3_witness : play jammedState = jammedState :=
  (claim3_play_refuses_on_jamming jammedState).1 (by decide)

/-- C4, counterexample: drive A-B, drag B out of range, rebuild and play
again.  Gear 2 is unreachable from the driver (it has no connections at
all), yet its rpm is still `20`, not `0`: propagation leaves stale speeds on
disconnected gears. -/
theorem claim4_counterexample :
    ((play (updateConnections abMovedState)).gears.map
      (fun g => (g.id, g.rpm, g.connectedTo))) =
      [(1, 30, []), (2, 20, [])] ∧ (20 : ℚ) ≠ 0 := by
  decide

/-- C6, counterexample: gears of modules 2 and 3 (`|Δmodule| = 1 ≥ 0.001`)
placed exactly at their ideal meshing distance 50 (within
`meshThreshold = 3`).  The rebuild creates no edge, but contrary to the
claim it flags nothing: both gears end with empty error state. -/
theorem claim6_counterexample :
    (1 / 1000 ≤ |(2 : ℚ) - 3|) ∧
    distWithin (dist2 ⟨0, 0, 0⟩ ⟨50, 0, 0⟩) 50 3 = true ∧
    ((updateConnections incompatState).gears.map
      (fun g => (g.id, g.connectedTo, g.incompatibleWith, g.jammingError,
        g.overlapError))) =
      [(1, [], none, false, false), (2, [], none, false, false)] := by
  decide

/-- C7, counterexample: `addGear` stores the requested teeth count `200`
unclamped, above the allowed maximum of 100. -/
theorem claim7_counterexample :
    ((addGear emptyState (some 200) (some 2) (some 20) (some 5) (some 5)).gears.map
      (fun g => g.params.teeth)) = [200] ∧ ¬((200 : ℚ) ≤ 100) := by
  decide

/-- C9, counterexample: for the valid spec `teeth = 20, module = 2,
boreDiameter = 20`, the constructor keeps `boreRadius = 10` (since
`10 < rootRadius = 17.5` no clamping fires), while
`min (boreDiameter/2) (rootRadius * 0.5) = 8.75`: the claimed `min` formula
does not describe the code. -/
theorem claim9_counterexample :
    ((8 : ℚ) ≤ 20 ∧ (20 : ℚ) ≤ 100 ∧ (1 / 2 : ℚ) ≤ 2 ∧ (2 : ℚ) ≤ 10 ∧
      (1 : ℚ) ≤ 20 ∧ (20 : ℚ) ≤ 20) ∧
    (mkGearGeometry 20 2 5 20).boreRadius = 10 ∧
    min ((20 : ℚ) / 2) ((mkGearGeometry 20 2 5 20).rootRadius * (1 / 2)) = 35 / 4 ∧
    (mkGearGeometry 20 2 5 20).boreRadius ≠
      min ((20 : ℚ) / 2) ((mkGearGeometry 20 2 5 20).rootRadius * (1 / 2)) := by
  decide

/-- C9, amended: for every valid spec the derived dimensions satisfy
`rootRadius < pitchRadius < outerRadius` and `boreRadius < rootRadius`, and
the bore radius is `boreDiameter/2` unless that reaches `rootRadius`, in
which case it is `rootRadius * 0.5`. -/
theorem claim9_amended (teeth m thickness bore : ℚ)
    (ht1 : 8 ≤ teeth) (ht2 : teeth ≤ 100)
    (hm1 : 1 / 2 ≤ m) (hm2 : m ≤ 10)
    (hb1 : 1 ≤ bore) (hb2 : bore ≤ 20) :
    (mkGearGeometry teeth m thickness bore).rootRadius <
      (mkGearGeometry teeth m thickness bore).pitchRadius ∧
    (mkGearGeometry teeth m thickness bore).pitchRadius <
      (mkGearGeometry teeth m thickness bore).outerRadius ∧
    (mkGearGeometry teeth m thickness bore).boreRadius <
      (mkGearGeometry teeth m thickness bore).rootRadius ∧
    (mkGearGeometry teeth m thickness bore).boreRadius =
      (if bore / 2 ≥ (mkGearGeometry teeth m thickness bore).rootRadius then
        (mkGearGeometry teeth m thickness bore).rootRadius * (1 / 2)
      else bore / 2) := by
  have hteeth : teeth ≠ 0 := by positivity
  have hmz : m ≠ 0 := by positivity
  have hbz : bore ≠ 0 := by positivity
  have hroot : (0 : ℚ) < teeth * m / 2 - 5 / 4 * m := by nlinarith
  unfold mkGearGeometry orDefault
  simp only [hteeth, hmz, hbz, if_false]
  refine ⟨by nlinarith, by nlinarith, ?_, ?_⟩
  · by_cases hcl : bore / 2 ≥ teeth * m / 2 - 5 / 4 * m
    · simp only [hcl, if_true]
      nlinarith
    · simp only [hcl, if_false]
      nlinarith [lt_of_not_ge hcl]
  · trivial

/-- C9, amended, witness at `teeth = 20, module = 2, bore = 20`. -/
theorem claim9_amended_witness :
    (mkGearGeometry 20 2 5 20).rootRadius < (mkGearGeometry 20 2 5 20).pitchRadius ∧
    (mkGearGeometry 20 2 5 20).pitchRadius < (mkGearGeometry 20 2 5 20).outerRadius ∧
    (mkGearGeometry 20 2 5 20).boreRadius < (mkGearGeometry 20 2 5 20).rootRadius ∧
    (mkGearGeometry 20 2 5 20).boreRadius =
      (if (20 : ℚ) / 2 ≥ (mkGearGeometry 20 2 5 20).rootRadius then
        (mkGearGeometry 20 2 5 20).rootRadius * (1 / 2)
      else (20 : ℚ) / 2) :=
  claim9_amended 20 2 5 20 (by norm_num) (by norm_num) (by norm_num)
    (by norm_num) (by norm_num) (by norm_num)

/-! ### The edges the rebuild creates (C5, C6) -/

theorem dist2_comm (p q : Vec3) : dist2 p q = dist2 q p := by
  unfold dist2
  ring

theorem idealDistance_comm (g1 g2 : Gear) :
    idealDistance g1 g2 = idealDistance g2 g1 := by
  unfold idealDistance
  ring

theorem checkGearsOverlap_comm (g1 g2 : Gear) :
    checkGearsOverlap g1 g2 = checkGearsOverlap g2 g1 := by
  unfold checkGearsOverlap
  rw [dist2_comm, idealDistance_comm]

theorem areGearsCompatible_comm (g1 g2 : Gear) :
    areGearsCompatible g1 g2 = areGearsCompatible g2 g1 := by
  unfold areGearsCompatible
  rw [abs_sub_comm]

theorem mem_pushUnique {x n : ℕ} {l : List ℕ} :
    x ∈ pushUnique l n ↔ x ∈ l ∨ x = n := by
  unfold pushUnique
  by_cases h : n ∈ l
  · rw [if_pos h]
    constructor
    · exact Or.inl
    · rintro (hx | rfl)
      · exact hx
      · exact h
  · rw [if_neg h]
    simp

theorem pairIndices_lt {n i j : ℕ} (h : (i, j) ∈ pairIndices n) :
    i < j ∧ j < n := by
  unfold pairIndices at h
  rw [List.mem_flatten] at h
  obtain ⟨sub, hsub, hmem⟩ := h
  rw [List.mem_map] at hsub
  obtain ⟨i0, hi0, rfl⟩ := hsub
  rw [List.mem_map] at hmem
  obtain ⟨j0, hj0, heq⟩ := hmem
  cases heq
  rw [List.mem_iff_getElem?] at hj0
  obtain ⟨k, hk⟩ := hj0
  rw [List.getElem?_drop] at hk
  have hlt : i + 1 + k < n := by
    by_contra hge
    rw [List.getElem?_eq_none (by simpa using hge)] at hk
    exact Option.noConfusion hk
  rw [List.getElem?_range hlt] at hk
  have := Option.some.inj hk
  omega

theorem pairIndices_mem {n i j : ℕ} (hij : i < j) (hj : j < n) :
    (i, j) ∈ pairIndices n := by
  unfold pairIndices
  rw [List.mem_flatten]
  refine ⟨((List.range n).drop (i + 1)).map (fun j2 => (i, j2)),
    List.mem_map.mpr ⟨i, List.mem_range.mpr (by omega), rfl⟩,
    List.mem_map.mpr ⟨j, ?_, rfl⟩⟩
  rw [List.mem_iff_getElem?]
  refine ⟨j - (i + 1), ?_⟩
  rw [List.getElem?_drop, List.getElem?_range (by omega)]
  congr 1
  omega

theorem collectCandidates_lt {X : List Gear} {p : ℕ × ℕ × ℚ}
    (h : p ∈ collectCandidates X) : p.1 < p.2.1 := by
  unfold collectCandidates at h
  rw [List.mem_filterMap] at h
  obtain ⟨q, hq, heq⟩ := h
  cases h1 : X[q.1]? with
  | none => rw [h1] at heq; simp at heq
  | some g1 =>
    cases h2 : X[q.2]? with
    | none => rw [h1, h2] at heq; simp at heq
    | some g2 =>
      rw [h1, h2] at heq
      dsimp only at heq
      by_cases hd : distWithin (dist2 g1.pos g2.pos) (idealDistance g1 g2) 3
      · rw [if_pos hd] at heq
        have := Option.some.inj heq
        have h1e : q.1 = p.1 := congrArg (fun t => t.1) this
        have h2e : q.2 = p.2.1 := congrArg (fun t => t.2.1) this
        have := pairIndices_lt (show (q.1, q.2) ∈ pairIndices X.length from hq)
        omega
      · rw [if_neg hd] at heq
        exact Option.noConfusion heq

theorem mem_insertByDist {c x : ℕ × ℕ × ℚ} :
    ∀ {l : List (ℕ × ℕ × ℚ)}, x ∈ insertByDist c l ↔ x = c ∨ x ∈ l := by
  intro l
  induction l with
  | nil => simp [insertByDist]
  | cons d ds ih =>
    unfold insertByDist
    by_cases h : c.2.2 ≤ d.2.2
    · rw [if_pos h]
      simp
    · rw [if_neg h]
      rw [List.mem_cons, ih, List.mem_cons]
      tauto

theorem mem_sortByDist {x : ℕ × ℕ × ℚ} :
    ∀ {l : List (ℕ × ℕ × ℚ)}, x ∈ sortByDist l ↔ x ∈ l := by
  intro l
  induction l with
  | nil => simp [sortByDist]
  | cons d ds ih =>
    unfold sortByDist
    rw [mem_insertByDist, ih, List.mem_cons]

theorem uniqueIds_eq_of {X : List Gear} (h : UniqueIds X) {k l : ℕ}
    {gk gl : Gear} (hk : X[k]? = some gk) (hl : X[l]? = some gl)
    (hid : gk.id = gl.id) : k = l := by
  unfold UniqueIds at h
  have hk2 : (X.map Gear.id)[k]? = some gk.id := by
    rw [List.getElem?_map, hk, Option.map_some']
  have hl2 : (X.map Gear.id)[l]? = some gl.id := by
    rw [List.getElem?_map, hl, Option.map_some']
  rw [hid] at hk2
  have hlen : k < (X.map Gear.id).length := by
    by_contra hge
    rw [List.getElem?_eq_none (by omega)] at hk2
    exact Option.noConfusion hk2
  exact List.getElem?_inj hlen h (hk2.trans hl2.symm)

theorem getElem?_lt_length {X : List Gear} {i : ℕ} {g : Gear}
    (h : X[i]? = some g) : i < X.length := by
  by_contra hge
  rw [List.getElem?_eq_none (by omega)] at h
  exact Option.noConfusion h

/-- One `connectGears` step preserves the invariant that every existing edge
joins a non-overlapping, module-compatible pair. -/
theorem connectGearsAt_inv_step
    {X : List Gear} {i j : ℕ} {g1 g2 : Gear}
    (hij : i ≠ j)
    (h1 : X[i]? = some g1) (h2 : X[j]? = some g2)
    (hov : checkGearsOverlap g1 g2 = false)
    (hcomp : areGearsCompatible g1 g2 = true)
    (huniq : UniqueIds X)
    (hinv : ∀ (k l : ℕ) (gk gl : Gear), X[k]? = some gk → X[l]? = some gl →
      gl.id ∈ gk.connectedTo →
      checkGearsOverlap gk gl = false ∧ areGearsCompatible gk gl = true) :
    ∀ (k l : ℕ) (gk gl : Gear), (connectGearsAt X i j g1 g2)[k]? = some gk →
      (connectGearsAt X i j g1 g2)[l]? = some gl →
      gl.id ∈ gk.connectedTo →
      checkGearsOverlap gk gl = false ∧ areGearsCompatible gk gl = true := by
  have hilen : i < X.length := getElem?_lt_length h1
  have hjlen : j < X.length := getElem?_lt_length h2
  intro k l gk gl hk hl hmem
  have hlook : ∀ m gm, (connectGearsAt X i j g1 g2)[m]? = some gm →
      (m = j ∧ gm = { g2 with connectedTo := pushUnique g2.connectedTo g1.id }) ∨
      (m = i ∧ gm = { g1 with connectedTo := pushUnique g1.connectedTo g2.id }) ∨
      (m ≠ i ∧ m ≠ j ∧ X[m]? = some gm) := by
    intro m gm hm
    unfold connectGearsAt at hm
    by_cases hmj : m = j
    · subst hmj
      rw [List.getElem?_set_self (by simpa using hjlen)] at hm
      exact Or.inl ⟨rfl, (Option.some.inj hm).symm⟩
    · rw [List.getElem?_set_ne (Ne.symm hmj)] at hm
      by_cases hmi : m = i
      · subst hmi
        rw [List.getElem?_set_self (by simpa using hilen)] at hm
        exact Or.inr (Or.inl ⟨rfl, (Option.some.inj hm).symm⟩)
      · rw [List.getElem?_set_ne (Ne.symm hmi)] at hm
        exact Or.inr (Or.inr ⟨hmi, hmj, hm⟩)
  have htrans : ∀ x y x2 y2 : Gear, sig x = sig x2 → sig y = sig y2 →
      checkGearsOverlap x2 y2 = false → areGearsCompatible x2 y2 = true →
      checkGearsOverlap x y = false ∧ areGearsCompatible x y = true := by
    intro x y x2 y2 hx hy ho hc
    rw [checkGearsOverlap_congr hx hy, areGearsCompatible_congr hx hy]
    exact ⟨ho, hc⟩
  have hov21 : checkGearsOverlap g2 g1 = false := by
    rw [checkGearsOverlap_comm]
    exact hov
  have hcomp21 : areGearsCompatible g2 g1 = true := by
    rw [areGearsCompatible_comm]
    exact hcomp
  rcases hlook k gk hk with ⟨-, rfl⟩ | ⟨-, rfl⟩ | ⟨hki, hkj, hkX⟩
  · rcases hlook l gl hl with ⟨-, rfl⟩ | ⟨-, rfl⟩ | ⟨hli, hlj, hlX⟩
    · have hmem2 : g2.id ∈ pushUnique g2.connectedTo g1.id := hmem
      rcases mem_pushUnique.mp hmem2 with hin | heq
      · have hc := hinv j j g2 g2 h2 h2 hin
        exact htrans _ _ g2 g2 rfl rfl hc.1 hc.2
      · exact absurd (uniqueIds_eq_of huniq h2 h1 heq) (fun hji => hij hji.symm)
    · exact htrans _ _ g2 g1 rfl rfl hov21 hcomp21
    · have hmem2 : gl.id ∈ pushUnique g2.connectedTo g1.id := hmem
      rcases mem_pushUnique.mp hmem2 with hin | heq
      · have hc := hinv j l g2 gl h2 hlX hin
        exact htrans _ _ g2 gl rfl rfl hc.1 hc.2
      · exact absurd (uniqueIds_eq_of huniq hlX h1 heq) hli
  · rcases hlook l gl hl with ⟨-, rfl⟩ | ⟨-, rfl⟩ | ⟨hli, hlj, hlX⟩
    · exact htrans _ _ g1 g2 rfl rfl hov hcomp
    · have hmem2 : g1.id ∈ pushUnique g1.connectedTo g2.id := hmem
      rcases mem_pushUnique.mp hmem2 with hin | heq
      · have hc := hinv i i g1 g1 h1 h1 hin
        exact htrans _ _ g1 g1 rfl rfl hc.1 hc.2
      · exact absurd (uniqueIds_eq_of huniq h1 h2 heq) hij
    · have hmem2 : gl.id ∈ pushUnique g1.connectedTo g2.id := hmem
      rcases mem_pushUnique.mp hmem2 with hin | heq
      · have hc := hinv i l g1 gl h1 hlX hin
        exact htrans _ _ g1 gl rfl rfl hc.1 hc.2
      · exact absurd (uniqueIds_eq_of huniq hlX h2 heq) hlj
  · rcases hlook l gl hl with ⟨-, rfl⟩ | ⟨-, rfl⟩ | ⟨hli, hlj, hlX⟩
    · have hmem2 : g2.id ∈ gk.connectedTo := hmem
      have hc := hinv k j gk g2 hkX h2 hmem2
      exact htrans _ _ gk g2 rfl rfl hc.1 hc.2
    · have hmem2 : g1.id ∈ gk.connectedTo := hmem
      have hc := hinv k i gk g1 hkX h1 hmem2
      exact htrans _ _ gk g1 rfl rfl hc.1 hc.2
    · exact hinv k l gk gl hkX hlX hmem

/-- The connection loop only ever creates edges between non-overlapping,
module-compatible pairs. -/
theorem connectLoop_edge_inv :
    ∀ (c : List (ℕ × ℕ × ℚ)) (X : List Gear) (jp : Option (ℕ × ℕ)),
      (∀ p ∈ c, p.1 ≠ p.2.1) → UniqueIds X →
      (∀ (k l : ℕ) (gk gl : Gear), X[k]? = some gk → X[l]? = some gl →
        gl.id ∈ gk.connectedTo →
        checkGearsOverlap gk gl = false ∧ areGearsCompatible gk gl = true) →
      ∀ (k l : ℕ) (gk gl : Gear), ((connectLoop c X jp).1)[k]? = some gk →
        ((connectLoop c X jp).1)[l]? = some gl →
        gl.id ∈ gk.connectedTo →
        checkGearsOverlap gk gl = false ∧ areGearsCompatible gk gl = true := by
  intro c
  induction c with
  | nil => intro X jp _ _ hinv; exact hinv
  | cons p rest ih =>
    intro X jp hc huniq hinv
    have hcrest : ∀ q ∈ rest, q.1 ≠ q.2.1 :=
      fun q hq => hc q (List.mem_cons_of_mem _ hq)
    rw [connectLoop]
    cases h1 : X[p.1]? with
    | none => exact ih X jp hcrest huniq hinv
    | some g1 =>
      cases h2 : X[p.2.1]? with
      | none => exact ih X jp hcrest huniq hinv
      | some g2 =>
        by_cases hov : checkGearsOverlap g1 g2
        · simp only [hov, if_true]
          exact ih X jp hcrest huniq hinv
        · simp only [hov, if_false, Bool.false_eq_true, Bool.not_false]
          by_cases hcomp : areGearsCompatible g1 g2
          · simp only [hcomp, Bool.not_true, Bool.false_eq_true, if_false]
            by_cases hjam : wouldCauseJamming X g1 g2
            · simp only [hjam, if_true]
              exact ih X _ hcrest huniq hinv
            · simp only [hjam, Bool.false_eq_true, if_false]
              apply ih _ _ hcrest
              · unfold UniqueIds
                rw [connectGearsAt_map_proj Gear.id (fun g l => rfl)
                  X p.1 p.2.1 g1 g2 h1 h2]
                exact huniq
              · exact connectGearsAt_inv_step (hc p (List.mem_cons_self _ _))
                  h1 h2 (Bool.eq_false_iff.mpr hov) hcomp huniq hinv
          · simp only [hcomp, Bool.not_false, if_true]
            exact ih X jp hcrest huniq hinv

theorem dist2_nonneg (p q : Vec3) : 0 ≤ dist2 p q := by
  unfold dist2
  positivity

/-- The rational encoding of `√s < c` agrees with the real comparison. -/
theorem sqrtLt_iff (s c : ℚ) (hs : 0 ≤ s) :
    sqrtLt s c = true ↔ Real.sqrt (s : ℝ) < (c : ℝ) := by
  unfold sqrtLt
  simp only [Bool.and_eq_true, decide_eq_true_eq]
  constructor
  · rintro ⟨hc, hlt⟩
    have hc2 : (0 : ℝ) < (c : ℝ) := by exact_mod_cast hc
    rw [Real.sqrt_lt' hc2]
    push_cast
    exact_mod_cast hlt
  · intro h
    have hc2 : (0 : ℝ) < (c : ℝ) := lt_of_le_of_lt (Real.sqrt_nonneg _) h
    refine ⟨by exact_mod_cast hc2, ?_⟩
    have h2 := (Real.sqrt_lt' hc2).mp h
    exact_mod_cast h2

/-- The rational encoding of `√s > c` agrees with the real comparison. -/
theorem sqrtGt_iff (s c : ℚ) (hs : 0 ≤ s) :
    sqrtGt s c = true ↔ (c : ℝ) < Real.sqrt (s : ℝ) := by
  unfold sqrtGt
  simp only [Bool.or_eq_true, decide_eq_true_eq]
  constructor
  · rintro (hc | hlt)
    · exact lt_of_lt_of_le (by exact_mod_cast hc) (Real.sqrt_nonneg _)
    · by_cases hc0 : (0 : ℝ) ≤ (c : ℝ)
      · rw [Real.lt_sqrt hc0]
        push_cast
        exact_mod_cast hlt
      · exact lt_of_lt_of_le (lt_of_not_ge hc0) (Real.sqrt_nonneg _)
  · intro h
    by_cases hc0 : c < 0
    · exact Or.inl hc0
    · right
      have hc2 : (0 : ℝ) ≤ (c : ℝ) := by exact_mod_cast not_lt.mp hc0
      have h2 := (Real.lt_sqrt hc2).mp h
      exact_mod_cast h2

theorem map_gearId_of_map_sig {X Y : List Gear} (h : X.map sig = Y.map sig) :
    X.map Gear.id = Y.map Gear.id := by
  have h2 := congrArg (List.map (fun t : ℕ × Vec3 × GearParams => t.1)) h
  simpa [List.map_map, Function.comp] using h2

theorem NoFlags_phase1 {X : List Gear} (h : FlagsWithRef X) :
    NoFlags (phase1 X) := by
  intro g hg
  unfold phase1 at hg
  rw [List.mem_map] at hg
  obtain ⟨x, hx, rfl⟩ := hg
  by_cases hguard : x.incompatibleWith.isSome && (x.jammingError || x.overlapError)
  · rw [if_pos hguard]
    unfold clearIncompatibleState
    rw [if_pos (Bool.and_elim_left hguard)]
    exact ⟨rfl, rfl⟩
  · rw [if_neg hguard]
    cases hj : x.jammingError with
    | false =>
      cases ho : x.overlapError with
      | false => exact ⟨rfl, rfl⟩
      | true =>
        have hiw := h x hx (Or.inr ho)
        have hs : x.incompatibleWith.isSome = true := by
          rw [Option.isSome_iff_ne_none]
          exact hiw
        simp [hs, hj, ho] at hguard
    | true =>
      have hiw := h x hx (Or.inl hj)
      have hs : x.incompatibleWith.isSome = true := by
        rw [Option.isSome_iff_ne_none]
        exact hiw
      simp [hs, hj] at hguard

theorem flags_clearIncompatibleState {x : Gear}
    (h : x.jammingError = false ∧ x.overlapError = false) :
    (clearIncompatibleState x).jammingError = false ∧
    (clearIncompatibleState x).overlapError = false := by
  unfold clearIncompatibleState
  split
  · exact ⟨rfl, rfl⟩
  · exact h

theorem NoFlags_phase2 {X : List Gear} (h : NoFlags X) : NoFlags (phase2 X) := by
  intro g hg
  unfold phase2 at hg
  rw [List.mem_map] at hg
  obtain ⟨x, hx, rfl⟩ := hg
  have hxf := h x hx
  unfold phase2Step
  split
  · split
    · exact flags_clearIncompatibleState hxf
    · split
      · exact flags_clearIncompatibleState hxf
      · exact hxf
  · exact hxf

theorem NoFlags_clearConn {X : List Gear} (h : NoFlags X) :
    NoFlags (X.map (fun g => { g with connectedTo := [] })) := by
  intro g hg
  rw [List.mem_map] at hg
  obtain ⟨x, hx, rfl⟩ := hg
  exact h x hx

theorem NoFlags_connectLoop :
    ∀ (c : List (ℕ × ℕ × ℚ)) (X : List Gear) (jp : Option (ℕ × ℕ)),
      NoFlags X → NoFlags (connectLoop c X jp).1 := by
  intro c
  induction c with
  | nil => intro X jp h; exact h
  | cons p rest ih =>
    intro X jp h
    rw [connectLoop]
    cases h1 : X[p.1]? with
    | none => exact ih X jp h
    | some g1 =>
      cases h2 : X[p.2.1]? with
      | none => exact ih X jp h
      | some g2 =>
        by_cases hov : checkGearsOverlap g1 g2
        · simp only [hov, if_true]
          exact ih X jp h
        · simp only [hov, if_false, Bool.false_eq_true, Bool.not_false]
          by_cases hcomp : areGearsCompatible g1 g2
          · simp only [hcomp, Bool.not_true, Bool.false_eq_true, if_false]
            by_cases hjam : wouldCauseJamming X g1 g2
            · simp only [hjam, if_true]
              exact ih X _ h
            · simp only [hjam, Bool.false_eq_true, if_false]
              apply ih
              intro g hg
              unfold connectGearsAt at hg
              rcases List.mem_or_eq_of_mem_set hg with hg2 | rfl
              · rcases List.mem_or_eq_of_mem_set hg2 with hg3 | rfl
                · exact h g hg3
                · exact h g1 (List.getElem?_mem h1)
              · exact h g2 (List.getElem?_mem h2)
          · simp only [hcomp, Bool.not_false, if_true]
            exact ih X jp h

theorem countP_set_le_one (p : Gear → Bool) :
    ∀ (X : List Gear) (e : ℕ) (v : Gear),
      (∀ g ∈ X, p g = false) → (X.set e v).countP p ≤ 1 := by
  intro X
  induction X with
  | nil => intro e v _; simp [List.countP, List.countP.go]
  | cons x xs ih =>
    intro e v h
    cases e with
    | zero =>
      rw [List.set]
      rw [List.countP_cons]
      have hxs : xs.countP p = 0 := by
        rw [List.countP_eq_zero]
        intro g hg
        simp [h g (List.mem_cons_of_mem _ hg)]
      rcases Bool.eq_false_or_eq_true (p v) with hv | hv <;>
        simp only [hv, if_true, if_false, Bool.false_eq_true, hxs] <;> omega
    | succ n =>
      rw [List.set]
      rw [List.countP_cons]
      have hx : p x = false := h x (List.mem_cons_self _ _)
      have := ih n v (fun g hg => h g (List.mem_cons_of_mem _ hg))
      simp only [hx, Bool.false_eq_true, if_false]
      omega

theorem countP_applyError_le_one {X : List Gear} (h : NoFlags X)
    (sel : Option ℕ) (op jp : Option (ℕ × ℕ)) :
    (applyError X sel op jp).countP
      (fun g => g.jammingError || g.overlapError) ≤ 1 := by
  have hzero : ∀ Y : List Gear, NoFlags Y →
      Y.countP (fun g => g.jammingError || g.overlapError) = 0 := by
    intro Y hY
    rw [List.countP_eq_zero]
    intro g hg
    simp [(hY g hg).1, (hY g hg).2]
  have hset : ∀ (i j : ℕ) (b : Bool),
      (setErrorAt X sel i j b).countP
        (fun g => g.jammingError || g.overlapError) ≤ 1 := by
    intro i j b
    unfold setErrorAt
    cases h1 : X[i]? with
    | none => rw [hzero X h]; omega
    | some gi =>
      cases h2 : X[j]? with
      | none => rw [hzero X h]; omega
      | some gj =>
        dsimp only
        have hfalse : ∀ g ∈ X, (g.jammingError || g.overlapError) = false := by
          intro g hg
          simp [(h g hg).1, (h g hg).2]
        split
        · exact countP_set_le_one _ X _ _ hfalse
        · exact countP_set_le_one _ X _ _ hfalse
  unfold applyError
  cases op with
  | some p => exact hset p.1 p.2 true
  | none =>
    cases jp with
    | some p => exact hset p.1 p.2 false
    | none => rw [hzero X h]; omega

theorem lookup_transfer {X Y : List Gear} (hsig : Y.map sig = X.map sig)
    (hconn : Y.map connSig = X.map connSig) {k : ℕ} {gk : Gear}
    (hk : Y[k]? = some gk) :
    ∃ gk2, X[k]? = some gk2 ∧ sig gk2 = sig gk ∧ connSig gk2 = connSig gk := by
  have h1 := getElem?_map_proj sig hsig k
  have h2 := getElem?_map_proj connSig hconn k
  rw [hk] at h1 h2
  cases hX : X[k]? with
  | none => rw [hX] at h1; simp at h1
  | some gk2 =>
    rw [hX] at h1 h2
    simp only [Option.map_some', Option.some.injEq] at h1 h2
    exact ⟨gk2, rfl, h1.symm, h2.symm⟩

theorem exceptConn_fields {x y : Gear} (h : exceptConn x = exceptConn y) :
    x.id = y.id ∧ x.incompatibleWith = y.incompatibleWith ∧
    x.jammingError = y.jammingError ∧ x.overlapError = y.overlapError := by
  unfold exceptConn at h
  simp only [Prod.mk.injEq] at h
  exact ⟨h.1, h.2.2.2.2.2.2.1, h.2.2.2.2.2.2.2.1, h.2.2.2.2.2.2.2.2⟩

theorem clearIncompatibleState_incompat_inv {x : Gear} {t : ℕ}
    (h : (clearIncompatibleState x).incompatibleWith = some t) :
    clearIncompatibleState x = x := by
  unfold clearIncompatibleState at h ⊢
  by_cases hs : x.incompatibleWith.isSome = true
  · rw [if_pos hs] at h
    simp [clearErrorFields] at h
  · rw [if_neg hs]

theorem phase2Step_incompat_inv {ctx : List Gear} {x : Gear} {t : ℕ}
    (h : (phase2Step ctx x).incompatibleWith = some t) :
    phase2Step ctx x = x := by
  unfold phase2Step at h ⊢
  by_cases hg : (x.incompatibleWith.isSome && !x.jammingError && !x.overlapError) = true
  · rw [if_pos hg] at h ⊢
    cases hm : x.incompatibleWith.bind (findGear ctx) with
    | none =>
      rw [hm] at h
      dsimp only at h ⊢
      exact clearIncompatibleState_incompat_inv h
    | some target =>
      rw [hm] at h
      dsimp only at h ⊢
      by_cases hd : distBeyond (dist2 x.pos target.pos) (idealDistance x target) 10 = true
      · rw [if_pos hd] at h ⊢
        exact clearIncompatibleState_incompat_inv h
      · rw [if_neg hd]
  · rw [if_neg hg]

theorem phase1Step_incompat_inv {x : Gear} {t : ℕ}
    (h : (if x.incompatibleWith.isSome && (x.jammingError || x.overlapError)
        then clearIncompatibleState x else x).incompatibleWith = some t) :
    (if x.incompatibleWith.isSome && (x.jammingError || x.overlapError)
      then clearIncompatibleState x else x) = x := by
  split at h
  · rw [if_pos (by assumption)]
    exact clearIncompatibleState_incompat_inv h
  · rw [if_neg (by assumption)]

theorem rebuild_decomp (s : SimState) :
    (updateConnections s).gears =
      applyError (rebuildConnected s).1 s.selectedGear
        (findOverlapPair (rebuildBase s)) (rebuildConnected s).2 := rfl

theorem rebuildBase_sig (s : SimState) :
    (rebuildBase s).map sig = s.gears.map sig := by
  unfold rebuildBase
  rw [map_sig_clearConn, map_sig_phase2, map_sig_phase1]

theorem rebuildBase_uniq {s : SimState} (h : UniqueIds s.gears) :
    UniqueIds (rebuildBase s) := by
  unfold UniqueIds
  rw [map_gearId_of_map_sig (rebuildBase_sig s)]
  exact h

theorem rebuildBase_noedges (s : SimState) :
    ∀ (k l : ℕ) (gk gl : Gear), (rebuildBase s)[k]? = some gk →
      (rebuildBase s)[l]? = some gl → gl.id ∈ gk.connectedTo →
      checkGearsOverlap gk gl = false ∧ areGearsCompatible gk gl = true := by
  intro k l gk gl hk hl hm
  exfalso
  unfold rebuildBase at hk
  rw [List.getElem?_map] at hk
  cases h2 : (phase2 (phase1 s.gears))[k]? with
  | none =>
    rw [h2] at hk
    exact Option.noConfusion hk
  | some x =>
    rw [h2] at hk
    simp only [Option.map_some', Option.some.injEq] at hk
    rw [← hk] at hm
    simp at hm

/-- Every edge the connection loop produces joins a non-overlapping,
module-compatible pair, since it starts from the edge-free cleared registry. -/
theorem rebuildConnected_inv {s : SimState} (h : UniqueIds s.gears) :
    ∀ (k l : ℕ) (gk gl : Gear), ((rebuildConnected s).1)[k]? = some gk →
      ((rebuildConnected s).1)[l]? = some gl → gl.id ∈ gk.connectedTo →
      checkGearsOverlap gk gl = false ∧ areGearsCompatible gk gl = true := by
  have h3 := rebuildBase_noedges s
  unfold rebuildConnected
  exact connectLoop_edge_inv _ _ _
    (fun p hp => Nat.ne_of_lt (collectCandidates_lt (mem_sortByDist.mp hp)))
    (rebuildBase_uniq h) h3

theorem rebuildConnected_exceptConn (s : SimState) :
    ((rebuildConnected s).1).map exceptConn = (rebuildBase s).map exceptConn := by
  unfold rebuildConnected
  exact connectLoop_map_proj exceptConn (fun g l => rfl) _ _ _

/-- A gear of the rebuilt registry corresponds position-wise to a gear of the
connection-loop output with the same geometric and graph signatures. -/
theorem rebuild_lookup {s : SimState} {k : ℕ} {gk : Gear}
    (hk : (updateConnections s).gears[k]? = some gk) :
    ∃ gk4, ((rebuildConnected s).1)[k]? = some gk4 ∧
      sig gk4 = sig gk ∧ connSig gk4 = connSig gk := by
  rw [rebuild_decomp] at hk
  exact lookup_transfer
    (applyError_map_proj sig (fun g t => rfl) (fun g t => rfl) _ _ _ _)
    (applyError_map_proj connSig (fun g t => rfl) (fun g t => rfl) _ _ _ _) hk

/-- Membership in the error-surfacing output: either the gear was already
present, or it carries the freshly set flag. -/
theorem mem_setErrorAt {X : List Gear} {sel : Option ℕ} {i j : ℕ} {b : Bool}
    {g : Gear} (h : g ∈ setErrorAt X sel i j b) :
    g ∈ X ∨ g.jammingError = true ∨ g.overlapError = true := by
  unfold setErrorAt at h
  cases h1 : X[i]? with
  | none =>
    rw [h1] at h
    exact Or.inl h
  | some gi =>
    cases h2 : X[j]? with
    | none =>
      rw [h1, h2] at h
      exact Or.inl h
    | some gj =>
      rw [h1, h2] at h
      dsimp only at h
      by_cases hs1 : sel = some gi.id
      · rw [if_pos hs1] at h
        cases b with
        | true =>
          rcases List.mem_or_eq_of_mem_set
            (show g ∈ X.set i (setOverlapFields gi gj.id) from h) with hm | rfl
          · exact Or.inl hm
          · exact Or.inr (Or.inr rfl)
        | false =>
          rcases List.mem_or_eq_of_mem_set
            (show g ∈ X.set i (setJammingFields gi gj.id) from h) with hm | rfl
          · exact Or.inl hm
          · exact Or.inr (Or.inl rfl)
      · rw [if_neg hs1] at h
        by_cases hs2 : sel = some gj.id
        · rw [if_pos hs2] at h
          cases b with
          | true =>
            rcases List.mem_or_eq_of_mem_set
              (show g ∈ X.set j (setOverlapFields gj gi.id) from h) with hm | rfl
            · exact Or.inl hm
            · exact Or.inr (Or.inr rfl)
          | false =>
            rcases List.mem_or_eq_of_mem_set
              (show g ∈ X.set j (setJammingFields gj gi.id) from h) with hm | rfl
            · exact Or.inl hm
            · exact Or.inr (Or.inl rfl)
        · rw [if_neg hs2] at h
          cases b with
          | true =>
            rcases List.mem_or_eq_of_mem_set
              (show g ∈ X.set i (setOverlapFields gi gj.id) from h) with hm | rfl
            · exact Or.inl hm
            · exact Or.inr (Or.inr rfl)
          | false =>
            rcases List.mem_or_eq_of_mem_set
              (show g ∈ X.set i (setJammingFields gi gj.id) from h) with hm | rfl
            · exact Or.inl hm
            · exact Or.inr (Or.inl rfl)

theorem mem_applyError {X : List Gear} {sel : Option ℕ}
    {op jp : Option (ℕ × ℕ)} {g : Gear} (h : g ∈ applyError X sel op jp) :
    g ∈ X ∨ g.jammingError = true ∨ g.overlapError = true := by
  unfold applyError at h
  cases op with
  | some p => exact mem_setErrorAt h
  | none =>
    cases jp with
    | some p => exact mem_setErrorAt h
    | none => exact Or.inl h

/-- Surfacing an overlap error never raises a jamming flag on a flag-free
registry. -/
theorem mem_setErrorAt_overlap_jam_false {X : List Gear} (hnf : NoFlags X)
    (sel : Option ℕ) (i j : ℕ) {g : Gear}
    (hg : g ∈ setErrorAt X sel i j true) : g.jammingError = false := by
  unfold setErrorAt at hg
  cases h1 : X[i]? with
  | none =>
    rw [h1] at hg
    exact (hnf g hg).1
  | some gi =>
    cases h2 : X[j]? with
    | none =>
      rw [h1, h2] at hg
      exact (hnf g hg).1
    | some gj =>
      rw [h1, h2] at hg
      dsimp only at hg
      have hgi : gi.jammingError = false := (hnf gi (List.getElem?_mem h1)).1
      have hgj : gj.jammingError = false := (hnf gj (List.getElem?_mem h2)).1
      by_cases hs1 : sel = some gi.id
      · rw [if_pos hs1] at hg
        rcases List.mem_or_eq_of_mem_set
          (show g ∈ X.set i (setOverlapFields gi gj.id) from hg) with hm | rfl
        · exact (hnf g hm).1
        · exact hgi
      · rw [if_neg hs1] at hg
        by_cases hs2 : sel = some gj.id
        · rw [if_pos hs2] at hg
          rcases List.mem_or_eq_of_mem_set
            (show g ∈ X.set j (setOverlapFields gj gi.id) from hg) with hm | rfl
          · exact (hnf g hm).1
          · exact hgj
        · rw [if_neg hs2] at hg
          rcases List.mem_or_eq_of_mem_set
            (show g ∈ X.set i (setOverlapFields gi gj.id) from hg) with hm | rfl
          · exact (hnf g hm).1
          · exact hgi

/-- C5, overlap rules: (a) `checkGearsOverlap` flags a pair exactly when the
real Euclidean centre distance is below 90% of the ideal meshing distance;
(b) the rebuild never connects an overlapping pair; (c) on a well-formed
registry the rebuild surfaces at most one error, and when some pair overlaps
the surfaced error is the overlap one — no gear ends up with a jamming
flag. -/
theorem claim5_overlap_rules :
    (∀ g1 g2 : Gear, checkGearsOverlap g1 g2 = true ↔
      Real.sqrt ((dist2 g1.pos g2.pos : ℚ) : ℝ) <
        9 / 10 * ((((g1.params.pitchDiameter : ℚ) : ℝ) +
          ((g2.params.pitchDiameter : ℚ) : ℝ)) / 2)) ∧
    (∀ s : SimState, UniqueIds s.gears →
      ∀ (k l : ℕ) (gk gl : Gear),
        (updateConnections s).gears[k]? = some gk →
        (updateConnections s).gears[l]? = some gl →
        checkGearsOverlap gk gl = true → gl.id ∉ gk.connectedTo) ∧
    (∀ s : SimState, FlagsWithRef s.gears →
      ((updateConnections s).gears.countP
          (fun g => g.jammingError || g.overlapError)) ≤ 1 ∧
      ((∃ (i j : ℕ) (gi gj : Gear), i < j ∧ s.gears[i]? = some gi ∧
          s.gears[j]? = some gj ∧ checkGearsOverlap gi gj = true) →
        ∀ g ∈ (updateConnections s).gears, g.jammingError = false)) := by
  refine ⟨?_, ?_, ?_⟩
  · intro g1 g2
    have hcast : ((idealDistance g1 g2 * (9 / 10) : ℚ) : ℝ) =
        9 / 10 * ((((g1.params.pitchDiameter : ℚ) : ℝ) +
          ((g2.params.pitchDiameter : ℚ) : ℝ)) / 2) := by
      unfold idealDistance
      push_cast
      ring
    unfold checkGearsOverlap
    rw [sqrtLt_iff _ _ (dist2_nonneg _ _), hcast]
  · intro s huniq k l gk gl hk hl hov hmem
    obtain ⟨gk4, hk4, hsk, hck⟩ := rebuild_lookup hk
    obtain ⟨gl4, hl4, hsl, hcl⟩ := rebuild_lookup hl
    have hmem4 : gl4.id ∈ gk4.connectedTo := by
      rw [(connSig_fields hcl).1, (connSig_fields hck).2]
      exact hmem
    have hc := (rebuildConnected_inv huniq k l gk4 gl4 hk4 hl4 hmem4).1
    rw [checkGearsOverlap_congr hsk hsl, hov] at hc
    exact Bool.noConfusion hc
  · intro s hflags
    have hnf4 : NoFlags (rebuildConnected s).1 := by
      unfold rebuildConnected
      exact NoFlags_connectLoop _ _ _
        (NoFlags_clearConn (NoFlags_phase2 (NoFlags_phase1 hflags)))
    constructor
    · rw [rebuild_decomp]
      exact countP_applyError_le_one hnf4 _ _ _
    · rintro ⟨i, j, gi, gj, hij, hi, hj, hovp⟩ g hg
      have hi3 := getElem?_map_proj sig (rebuildBase_sig s) i
      have hj3 := getElem?_map_proj sig (rebuildBase_sig s) j
      rw [hi] at hi3
      rw [hj] at hj3
      cases hbi : (rebuildBase s)[i]? with
      | none =>
        rw [hbi] at hi3
        exact absurd hi3 (by simp)
      | some gi3 =>
      cases hbj : (rebuildBase s)[j]? with
      | none =>
        rw [hbj] at hj3
        exact absurd hj3 (by simp)
      | some gj3 =>
      rw [hbi] at hi3
      rw [hbj] at hj3
      simp only [Option.map_some', Option.some.injEq] at hi3 hj3
      have hjlen : j < (rebuildBase s).length := getElem?_lt_length hbj
      have hpmem : (i, j) ∈ pairIndices (rebuildBase s).length :=
        pairIndices_mem hij hjlen
      cases hq0 : findOverlapPair (rebuildBase s) with
      | none =>
        exfalso
        unfold findOverlapPair at hq0
        have hnp := List.find?_eq_none.mp hq0 (i, j) hpmem
        apply hnp
        dsimp only
        rw [hbi, hbj]
        dsimp only
        rw [checkGearsOverlap_congr hi3 hj3]
        exact hovp
      | some q =>
        rw [rebuild_decomp, hq0] at hg
        exact mem_setErrorAt_overlap_jam_false hnf4 s.selectedGear q.1 q.2
          (show g ∈ setErrorAt (rebuildConnected s).1 s.selectedGear q.1 q.2 true
            from hg)

/-- C5, witness: in the two-gear overlap scene the rebuild flags the overlap
(and only it: no jamming flag anywhere, at most one flagged gear), the pair
indeed overlaps, and the rebuilt registry keeps the pair unconnected. -/
theorem claim5_witness :
    (∀ g ∈ (updateConnections overlapPairState).gears, g.jammingError = false) ∧
    ((updateConnections overlapPairState).gears.countP
        (fun g => g.jammingError || g.overlapError) ≤ 1) ∧
    ∃ gk gl : Gear,
      (updateConnections overlapPairState).gears[0]? = some gk ∧
      (updateConnections overlapPairState).gears[1]? = some gl ∧
      checkGearsOverlap gk gl = true ∧ gl.id ∉ gk.connectedTo := by
  refine ⟨(claim5_overlap_rules.2.2 overlapPairState (by decide)).2
      ⟨0, 1, sampleGear 1 20 40 true ⟨0, 0, 0⟩, sampleGear 2 20 40 false ⟨30, 0, 0⟩,
        by decide, by decide, by decide, by decide⟩,
    (claim5_overlap_rules.2.2 overlapPairState (by decide)).1, ?_⟩
  refine ⟨{ sampleGear 1 20 40 true ⟨0, 0, 0⟩ with
      incompatibleWith := some 2, overlapError := true },
    sampleGear 2 20 40 false ⟨30, 0, 0⟩, by decide, by decide, by decide, ?_⟩
  exact claim5_overlap_rules.2.1 overlapPairState (by decide) 0 1 _ _
    (by decide) (by decide) (by decide)

/-- C6, amended: during the full rebuild a module-incompatible pair in
meshing range gets no connection (first conjunct: no edge of the rebuilt
registry ever joins an incompatible pair), and the rebuild itself never
newly raises a module-incompatibility error: every gear of the output that
carries an `incompatibleWith` reference without a fresh jamming/overlap flag
inherited that reference unchanged from the input registry (second
conjunct). -/
theorem claim6_amended :
    (∀ s : SimState, UniqueIds s.gears →
      ∀ (k l : ℕ) (gk gl : Gear),
        (updateConnections s).gears[k]? = some gk →
        (updateConnections s).gears[l]? = some gl →
        areGearsCompatible gk gl = false → gl.id ∉ gk.connectedTo) ∧
    (∀ s : SimState, ∀ g ∈ (updateConnections s).gears, ∀ t : ℕ,
      g.incompatibleWith = some t → g.jammingError = false →
      g.overlapError = false →
      ∃ g0 ∈ s.gears, g0.id = g.id ∧ g0.incompatibleWith = some t) := by
  constructor
  · intro s huniq k l gk gl hk hl hcomp hmem
    obtain ⟨gk4, hk4, hsk, hck⟩ := rebuild_lookup hk
    obtain ⟨gl4, hl4, hsl, hcl⟩ := rebuild_lookup hl
    have hmem4 : gl4.id ∈ gk4.connectedTo := by
      rw [(connSig_fields hcl).1, (connSig_fields hck).2]
      exact hmem
    have hc := (rebuildConnected_inv huniq k l gk4 gl4 hk4 hl4 hmem4).2
    rw [areGearsCompatible_congr hsk hsl, hcomp] at hc
    exact Bool.noConfusion hc
  · intro s g hg t hit hjf hof
    rw [rebuild_decomp] at hg
    rcases mem_applyError hg with hg4 | hflag | hflag
    · rw [List.mem_iff_getElem?] at hg4
      obtain ⟨k, hk4⟩ := hg4
      have hbase := getElem?_map_proj exceptConn (rebuildConnected_exceptConn s) k
      rw [hk4] at hbase
      cases hb : (rebuildBase s)[k]? with
      | none =>
        rw [hb] at hbase
        exact absurd hbase (by simp)
      | some g3 =>
      rw [hb] at hbase
      simp only [Option.map_some', Option.some.injEq] at hbase
      unfold rebuildBase at hb
      rw [List.getElem?_map] at hb
      cases h2 : (phase2 (phase1 s.gears))[k]? with
      | none =>
        rw [h2] at hb
        exact absurd hb (by simp)
      | some g2 =>
      rw [h2] at hb
      simp only [Option.map_some', Option.some.injEq] at hb
      have hexc : exceptConn g = exceptConn g2 := by
        rw [hbase, ← hb]
        rfl
      obtain ⟨hid_eq, hinc_eq, -, -⟩ := exceptConn_fields hexc
      have hg2inc : g2.incompatibleWith = some t := by
        rw [← hinc_eq]
        exact hit
      unfold phase2 at h2
      rw [List.getElem?_map] at h2
      cases h1 : (phase1 s.gears)[k]? with
      | none =>
        rw [h1] at h2
        exact absurd h2 (by simp)
      | some g1 =>
      rw [h1] at h2
      simp only [Option.map_some', Option.some.injEq] at h2
      have hstep2 : phase2Step (phase1 s.gears) g1 = g1 :=
        phase2Step_incompat_inv (by rw [h2]; exact hg2inc)
      have hg21 : g2 = g1 := by rw [← h2, hstep2]
      have hg1inc : g1.incompatibleWith = some t := by
        rw [← hg21]
        exact hg2inc
      unfold phase1 at h1
      rw [List.getElem?_map] at h1
      cases h0 : s.gears[k]? with
      | none =>
        rw [h0] at h1
        exact absurd h1 (by simp)
      | some g0 =>
      rw [h0] at h1
      simp only [Option.map_some', Option.some.injEq] at h1
      have hstep1 : (if g0.incompatibleWith.isSome &&
            (g0.jammingError || g0.overlapError)
          then clearIncompatibleState g0 else g0) = g0 :=
        phase1Step_incompat_inv (by rw [h1]; exact hg1inc)
      have hg10 : g1 = g0 := by rw [← h1, hstep1]
      refine ⟨g0, List.getElem?_mem h0, ?_, ?_⟩
      · rw [← hg10, ← hg21]
        exact hid_eq.symm
      · rw [← hg10]
        exact hg1inc
    · rw [hjf] at hflag
      exact Bool.noConfusion hflag
    · rw [hof] at hflag
      exact Bool.noConfusion hflag

/-- C6, amended, witness: in the scene where the first gear still carries a
module-mismatch reference to the incompatible second gear at ideal meshing
distance, the rebuild keeps the pair unconnected and the surviving
`incompatibleWith` reference traces back to the input registry. -/
theorem claim6_amended_witness :
    (∃ gk gl : Gear,
      (updateConnections leftoverState).gears[0]? = some gk ∧
      (updateConnections leftoverState).gears[1]? = some gl ∧
      areGearsCompatible gk gl = false ∧ gl.id ∉ gk.connectedTo) ∧
    ∃ g0 ∈ leftoverState.gears, g0.id =
      ({ sampleGear 1 20 40 true ⟨0, 0, 0⟩ with
          incompatibleWith := some 2 } : Gear).id ∧
      g0.incompatibleWith = some 2 := by
  constructor
  · refine ⟨{ sampleGear 1 20 40 true ⟨0, 0, 0⟩ with incompatibleWith := some 2 },
      { sampleGear 2 20 60 false ⟨50, 0, 0⟩ with
          params :=
            { teeth := 20, module := 3, pressureAngle := 20,
              thickness := 5, boreDiameter := 5, pitchDiameter := 60 } },
      by decide, by decide, by decide, ?_⟩
    exact claim6_amended.1 leftoverState (by decide) 0 1 _ _
      (by decide) (by decide) (by decide)
  · exact claim6_amended.2 leftoverState
      { sampleGear 1 20 40 true ⟨0, 0, 0⟩ with incompatibleWith := some 2 }
      (by decide) 2 (by decide) (by decide) (by decide)

theorem exceptConn_all {x y : Gear} (h : exceptConn x = exceptConn y) :
    x.id = y.id ∧ x.params = y.params ∧ x.pos = y.pos ∧ x.rpm = y.rpm ∧
    x.rotationDirection = y.rotationDirection ∧ x.isDriver = y.isDriver ∧
    x.incompatibleWith = y.incompatibleWith ∧
    x.jammingError = y.jammingError ∧ x.overlapError = y.overlapError := by
  unfold exceptConn at h
  simp only [Prod.mk.injEq] at h
  exact ⟨h.1, h.2.1, h.2.2.1, h.2.2.2.1, h.2.2.2.2.1, h.2.2.2.2.2.1,
    h.2.2.2.2.2.2.1, h.2.2.2.2.2.2.2.1, h.2.2.2.2.2.2.2.2⟩

theorem gear_ext {x y : Gear} (h1 : exceptConn x = exceptConn y)
    (h2 : x.connectedTo = y.connectedTo) : x = y := by
  obtain ⟨a1, a2, a3, a4, a5, a6, a7, a8, a9⟩ := exceptConn_all h1
  cases x
  cases y
  simp_all

theorem sig_of_exceptConn {x y : Gear} (h : exceptConn x = exceptConn y) :
    sig x = sig y := by
  obtain ⟨a1, a2, a3, -, -, -, -, -, -⟩ := exceptConn_all h
  unfold sig
  rw [a1, a2, a3]

theorem setFields_eq_of {x y : Gear} (t : ℕ) (b : Bool)
    (hid : x.id = y.id) (hpa : x.params = y.params) (hpos : x.pos = y.pos)
    (hrpm : x.rpm = y.rpm) (hdir : x.rotationDirection = y.rotationDirection)
    (hdrv : x.isDriver = y.isDriver) (hconn : x.connectedTo = y.connectedTo)
    (hjam : x.jammingError = y.jammingError)
    (hov : x.overlapError = y.overlapError) :
    (if b then setOverlapFields x t else setJammingFields x t) =
      (if b then setOverlapFields y t else setJammingFields y t) := by
  cases b
  · unfold setJammingFields
    cases x
    cases y
    simp_all
  · unfold setOverlapFields
    cases x
    cases y
    simp_all

theorem map_connSig_of {X Y : List Gear} (hs : X.map sig = Y.map sig)
    (hc : X.map Gear.connectedTo = Y.map Gear.connectedTo) :
    X.map connSig = Y.map connSig := by
  induction X generalizing Y with
  | nil =>
    cases Y with
    | nil => rfl
    | cons y ys => simp at hs
  | cons x xs ih =>
    cases Y with
    | nil => simp at hs
    | cons y ys =>
      simp only [List.map_cons, List.cons.injEq] at hs hc ⊢
      refine ⟨?_, ih hs.2 hc.2⟩
      unfold connSig
      rw [(sig_fields hs.1).1, hc.1]

theorem connectGearsAt_map_conn {X Y : List Gear} {g1 g2 g1a g2a : Gear}
    (hc : X.map Gear.connectedTo = Y.map Gear.connectedTo)
    (h1 : connSig g1 = connSig g1a) (h2 : connSig g2 = connSig g2a)
    (i j : ℕ) :
    (connectGearsAt X i j g1 g2).map Gear.connectedTo =
      (connectGearsAt Y i j g1a g2a).map Gear.connectedTo := by
  obtain ⟨h1i, h1c⟩ := connSig_fields h1
  obtain ⟨h2i, h2c⟩ := connSig_fields h2
  unfold connectGearsAt
  rw [List.map_set, List.map_set, List.map_set, List.map_set, hc]
  dsimp only
  rw [h1c, h2c, h1i, h2i]

/-- The connection loop only reads the geometric signatures and the
adjacency lists: two registries agreeing on both produce the same jamming
pair and the same adjacency assignment. -/
theorem connectLoop_congr :
    ∀ (c : List (ℕ × ℕ × ℚ)) (X Y : List Gear) (jp : Option (ℕ × ℕ)),
      X.map sig = Y.map sig →
      X.map Gear.connectedTo = Y.map Gear.connectedTo →
      (connectLoop c X jp).2 = (connectLoop c Y jp).2 ∧
        (connectLoop c X jp).1.map Gear.connectedTo =
          (connectLoop c Y jp).1.map Gear.connectedTo := by
  intro c
  induction c with
  | nil => intro X Y jp hs hc; exact ⟨rfl, hc⟩
  | cons p rest ih =>
    intro X Y jp hs hc
    have hcs : X.map connSig = Y.map connSig := map_connSig_of hs hc
    rw [connectLoop, connectLoop]
    cases h1 : X[p.1]? with
    | none =>
      cases h1y : Y[p.1]? with
      | none => exact ih X Y jp hs hc
      | some g1a =>
        have h := getElem?_map_proj sig hs p.1
        rw [h1, h1y] at h
        simp at h
    | some g1 =>
      cases h1y : Y[p.1]? with
      | none =>
        have h := getElem?_map_proj sig hs p.1
        rw [h1, h1y] at h
        simp at h
      | some g1a =>
        have hg1s : sig g1 = sig g1a := by
          have h := getElem?_map_proj sig hs p.1
          rw [h1, h1y] at h
          simpa using h
        have hg1c : connSig g1 = connSig g1a := by
          have h := getElem?_map_proj connSig hcs p.1
          rw [h1, h1y] at h
          simpa using h
        cases h2 : X[p.2.1]? with
        | none =>
          cases h2y : Y[p.2.1]? with
          | none => exact ih X Y jp hs hc
          | some g2a =>
            have h := getElem?_map_proj sig hs p.2.1
            rw [h2, h2y] at h
            simp at h
        | some g2 =>
          cases h2y : Y[p.2.1]? with
          | none =>
            have h := getElem?_map_proj sig hs p.2.1
            rw [h2, h2y] at h
            simp at h
          | some g2a =>
            have hg2s : sig g2 = sig g2a := by
              have h := getElem?_map_proj sig hs p.2.1
              rw [h2, h2y] at h
              simpa using h
            have hg2c : connSig g2 = connSig g2a := by
              have h := getElem?_map_proj connSig hcs p.2.1
              rw [h2, h2y] at h
              simpa using h
            dsimp only
            rw [← checkGearsOverlap_congr hg1s hg2s,
              ← areGearsCompatible_congr hg1s hg2s,
              ← wouldCauseJamming_congr hcs hg1c hg2c]
            by_cases hov : checkGearsOverlap g1 g2
            · simp only [hov, if_true]
              exact ih X Y jp hs hc
            · simp only [hov, if_false, Bool.false_eq_true, Bool.not_false]
              by_cases hcomp : areGearsCompatible g1 g2
              · simp only [hcomp, Bool.not_true, Bool.false_eq_true, if_false]
                by_cases hjam : wouldCauseJamming X g1 g2
                · simp only [hjam, if_true]
                  exact ih X Y _ hs hc
                · simp only [hjam, Bool.false_eq_true, if_false]
                  have hsig2 : (connectGearsAt X p.1 p.2.1 g1 g2).map sig =
                      (connectGearsAt Y p.1 p.2.1 g1a g2a).map sig := by
                    rw [connectGearsAt_map_proj sig (fun g l => rfl)
                        X p.1 p.2.1 g1 g2 h1 h2,
                      connectGearsAt_map_proj sig (fun g l => rfl)
                        Y p.1 p.2.1 g1a g2a h1y h2y]
                    exact hs
                  exact ih _ _ jp hsig2
                    (connectGearsAt_map_conn hc hg1c hg2c p.1 p.2.1)
              · simp only [hcomp, Bool.not_false, if_true]
                exact ih X Y jp hs hc

theorem phase1_of_noflags {X : List Gear} (h : NoFlags X) : phase1 X = X := by
  unfold phase1
  have h2 : ∀ g ∈ X,
      (if g.incompatibleWith.isSome && (g.jammingError || g.overlapError)
        then clearIncompatibleState g else g) = id g := by
    intro g hg
    exact if_neg (by simp [(h g hg).1, (h g hg).2])
  rw [List.map_congr_left h2, List.map_id]

theorem phase1_set {X : List Gear} (h : NoFlags X) (e : ℕ) (v : Gear) :
    phase1 (X.set e v) = X.set e
      (if v.incompatibleWith.isSome && (v.jammingError || v.overlapError)
        then clearIncompatibleState v else v) := by
  have h0 := phase1_of_noflags h
  unfold phase1 at h0 ⊢
  rw [List.map_set, h0]

/-- The first cleanup phase turns a freshly surfaced error back into a fully
cleared gear. -/
theorem setX_cleanup {ge : Gear} (t : ℕ) (b : Bool)
    (hj : ge.jammingError = false) :
    (if (if b then setOverlapFields ge t
          else setJammingFields ge t).incompatibleWith.isSome &&
        ((if b then setOverlapFields ge t
            else setJammingFields ge t).jammingError ||
          (if b then setOverlapFields ge t
            else setJammingFields ge t).overlapError)
      then clearIncompatibleState
        (if b then setOverlapFields ge t else setJammingFields ge t)
      else if b then setOverlapFields ge t else setJammingFields ge t) =
    clearErrorFields ge := by
  cases b
  · rfl
  · show (if (setOverlapFields ge t).incompatibleWith.isSome &&
        ((setOverlapFields ge t).jammingError ||
          (setOverlapFields ge t).overlapError)
      then clearIncompatibleState (setOverlapFields ge t)
      else setOverlapFields ge t) = clearErrorFields ge
    rw [show (setOverlapFields ge t).jammingError = ge.jammingError from rfl, hj]
    rfl

/-- A gear kept by the hysteresis phase has a live incompatibility target
within the clearing threshold. -/
theorem phase2Step_kept {Z : List Gear} {zk : Gear} {t : ℕ}
    (hjam : zk.jammingError = false) (hov : zk.overlapError = false)
    (hinc : zk.incompatibleWith = some t)
    (hkept : phase2Step Z zk = zk) :
    ∃ target, findGear Z t = some target ∧
      distBeyond (dist2 zk.pos target.pos) (idealDistance zk target) 10 =
        false := by
  unfold phase2Step at hkept
  rw [if_pos (by simp [hinc, hjam, hov])] at hkept
  have hb : zk.incompatibleWith.bind (findGear Z) = findGear Z t := by
    rw [hinc]
    exact Option.some_bind t (findGear Z)
  rw [hb] at hkept
  cases hm : findGear Z t with
  | none =>
    rw [hm] at hkept
    dsimp only at hkept
    exfalso
    unfold clearIncompatibleState at hkept
    rw [if_pos (by simp [hinc])] at hkept
    have h2 := congrArg Gear.incompatibleWith hkept
    rw [hinc] at h2
    exact Option.noConfusion h2
  | some target =>
    rw [hm] at hkept
    dsimp only at hkept
    by_cases hd : distBeyond (dist2 zk.pos target.pos)
        (idealDistance zk target) 10 = true
    · rw [if_pos hd] at hkept
      exfalso
      unfold clearIncompatibleState at hkept
      rw [if_pos (by simp [hinc])] at hkept
      have h2 := congrArg Gear.incompatibleWith hkept
      rw [hinc] at h2
      exact Option.noConfusion h2
    · exact ⟨target, rfl, Bool.eq_false_iff.mpr hd⟩

/-- A stale incompatibility reference surviving into the cleared registry
comes with a keep-certificate: its target resolves and is still within the
clearing threshold. -/
theorem rebuildBase_kept_cert {s : SimState} (hf : FlagsWithRef s.gears)
    {k : ℕ} {bk : Gear} {t : ℕ} (hk : (rebuildBase s)[k]? = some bk)
    (hinc : bk.incompatibleWith = some t) :
    ∃ target, findGear (phase1 s.gears) t = some target ∧
      distBeyond (dist2 bk.pos target.pos) (idealDistance bk target) 10 =
        false := by
  unfold rebuildBase at hk
  rw [List.getElem?_map] at hk
  cases h2 : (phase2 (phase1 s.gears))[k]? with
  | none =>
    rw [h2] at hk
    exact absurd hk (by simp)
  | some p2 =>
    rw [h2] at hk
    simp only [Option.map_some', Option.some.injEq] at hk
    have hpinc : p2.incompatibleWith = some t := by
      rw [← hk] at hinc
      exact hinc
    unfold phase2 at h2
    rw [List.getElem?_map] at h2
    cases h1 : (phase1 s.gears)[k]? with
    | none =>
      rw [h1] at h2
      exact absurd h2 (by simp)
    | some z =>
      rw [h1] at h2
      simp only [Option.map_some', Option.some.injEq] at h2
      have hkept : phase2Step (phase1 s.gears) z = z :=
        phase2Step_incompat_inv (by rw [h2]; exact hpinc)
      have hz : z = p2 := by rw [← h2, hkept]
      have hzf := NoFlags_phase1 hf z (List.getElem?_mem h1)
      have hzinc : z.incompatibleWith = some t := by
        rw [hz]
        exact hpinc
      obtain ⟨target, htar, hdist⟩ := phase2Step_kept hzf.1 hzf.2 hzinc hkept
      refine ⟨target, htar, ?_⟩
      rw [← hk, ← hz]
      exact hdist

/-- The hysteresis phase is a no-op on a flag-free registry whose stale
references all carry keep-certificates (stated against a signature-equal
resolution context `Z`). -/
theorem phase2_no_op {W Z : List Gear} (hsig : W.map sig = Z.map sig)
    (hnf : NoFlags W)
    (hcert : ∀ (k : ℕ) (w : Gear) (t : ℕ), W[k]? = some w →
      w.incompatibleWith = some t →
      ∃ target, findGear Z t = some target ∧
        distBeyond (dist2 w.pos target.pos) (idealDistance w target) 10 =
          false) :
    phase2 W = W := by
  unfold phase2
  apply List.ext_getElem?
  intro k
  rw [List.getElem?_map]
  cases hk : W[k]? with
  | none => rfl
  | some w =>
    rw [Option.map_some']
    have hstep : phase2Step W w = w := by
      cases hinc : w.incompatibleWith with
      | none =>
        unfold phase2Step
        rw [if_neg (by simp [hinc])]
      | some t =>
        obtain ⟨target, htar, hdist⟩ := hcert k w t hk hinc
        have hwf := hnf w (List.getElem?_mem hk)
        unfold phase2Step
        rw [if_pos (by simp [hinc, hwf.1, hwf.2])]
        have hb : w.incompatibleWith.bind (findGear W) = findGear W t := by
          rw [hinc]
          exact Option.some_bind t (findGear W)
        rw [hb]
        have hfg := findGear_congr_proj sig
          (fun x y hxy => (sig_fields hxy).1) hsig t
        rw [htar] at hfg
        cases hfg2 : findGear W t with
        | none =>
          rw [hfg2] at hfg
          simp at hfg
        | some target2 =>
          rw [hfg2] at hfg
          simp only [Option.map_some', Option.some.injEq] at hfg
          obtain ⟨-, hp, hq⟩ := sig_fields hfg
          dsimp only
          have hd2 : distBeyond (dist2 w.pos target2.pos)
              (idealDistance w target2) 10 = false := by
            unfold idealDistance
            rw [hp, hq]
            unfold idealDistance at hdist
            exact hdist
          rw [if_neg (by rw [hd2]; exact Bool.false_ne_true)]
    rw [hstep]

theorem map_clearConn_idem (Z : List Gear) :
    (Z.map (fun g => { g with connectedTo := [] })).map
      (fun g => { g with connectedTo := [] }) =
    Z.map (fun g => { g with connectedTo := [] }) := by
  rw [List.map_map]
  apply List.map_congr_left
  intro a ha
  rfl

theorem rebuildBase_map_clearConn (s : SimState) :
    (rebuildBase s).map (fun g => { g with connectedTo := [] }) =
      rebuildBase s := by
  unfold rebuildBase
  exact map_clearConn_idem _

theorem rebuildConnected_map_clearConn (s : SimState) :
    ((rebuildConnected s).1).map (fun g => { g with connectedTo := [] }) =
      rebuildBase s := by
  unfold rebuildConnected
  have h := connectLoop_map_proj
    (fun g : Gear => ({ g with connectedTo := [] } : Gear)) (fun g l => rfl)
    (sortByDist (collectCandidates (rebuildBase s))) (rebuildBase s) none
  rw [h]
  exact rebuildBase_map_clearConn s

theorem rebuildBase_conn_nil {s : SimState} {k : ℕ} {bk : Gear}
    (hk : (rebuildBase s)[k]? = some bk) : bk.connectedTo = [] := by
  unfold rebuildBase at hk
  rw [List.getElem?_map] at hk
  cases h2 : (phase2 (phase1 s.gears))[k]? with
  | none =>
    rw [h2] at hk
    exact absurd hk (by simp)
  | some p2 =>
    rw [h2] at hk
    simp only [Option.map_some', Option.some.injEq] at hk
    rw [← hk]

theorem NoFlags_set {X : List Gear} (h : NoFlags X) {v : Gear}
    (hv : v.jammingError = false ∧ v.overlapError = false) (e : ℕ) :
    NoFlags (X.set e v) := by
  intro g hg
  rcases List.mem_or_eq_of_mem_set hg with hm | rfl
  · exact h g hm
  · exact hv

/-- Error surfacing either leaves the registry untouched (and does so for
every id-compatible registry) or writes one flagged gear at a position and
with a target id determined by the ids alone, so an id-compatible registry
gets the corresponding write at the same position. -/
theorem setErrorAt_rerun (X : List Gear) (sel : Option ℕ) (i j : ℕ)
    (b : Bool) :
    (setErrorAt X sel i j b = X ∧
      ∀ Y : List Gear, (∀ k : ℕ, (X[k]?).map Gear.id = (Y[k]?).map Gear.id) →
        setErrorAt Y sel i j b = Y) ∨
    ∃ (e t : ℕ) (ge : Gear), X[e]? = some ge ∧
      setErrorAt X sel i j b =
        X.set e (if b then setOverlapFields ge t else setJammingFields ge t) ∧
      ∀ Y : List Gear, (∀ k : ℕ, (X[k]?).map Gear.id = (Y[k]?).map Gear.id) →
        ∀ ge2, Y[e]? = some ge2 →
          setErrorAt Y sel i j b =
            Y.set e (if b then setOverlapFields ge2 t
              else setJammingFields ge2 t) := by
  unfold setErrorAt
  cases h1 : X[i]? with
  | none =>
    left
    refine ⟨rfl, ?_⟩
    intro Y hids
    have hi := hids i
    rw [h1] at hi
    cases h1y : Y[i]? with
    | none => rfl
    | some gi2 =>
      rw [h1y] at hi
      simp at hi
  | some gi =>
    cases h2 : X[j]? with
    | none =>
      left
      refine ⟨rfl, ?_⟩
      intro Y hids
      have hj := hids j
      rw [h2] at hj
      cases h1y : Y[i]? with
      | none => rfl
      | some gi2 =>
        cases h2y : Y[j]? with
        | none => rfl
        | some gj2 =>
          rw [h2y] at hj
          simp at hj
    | some gj =>
      dsimp only
      by_cases hs1 : sel = some gi.id
      · rw [if_pos hs1]
        right
        refine ⟨i, gj.id, gi, h1, ?_, ?_⟩
        · cases b
          · rfl
          · rfl
        · intro Y hids ge2 hge2
          have hi := hids i
          have hj := hids j
          rw [h1] at hi
          rw [h2] at hj
          cases h1y : Y[i]? with
          | none =>
            rw [h1y] at hi
            simp at hi
          | some gi2 =>
            rw [h1y] at hi
            simp only [Option.map_some', Option.some.injEq] at hi
            cases h2y : Y[j]? with
            | none =>
              rw [h2y] at hj
              simp at hj
            | some gj2 =>
              rw [h2y] at hj
              simp only [Option.map_some', Option.some.injEq] at hj
              have hg : gi2 = ge2 := by
                rw [h1y] at hge2
                exact Option.some.inj hge2
              subst hg
              dsimp only
              rw [if_pos (show sel = some gi2.id from by rw [hs1, hi])]
              dsimp only
              rw [← hj]
              cases b
              · rfl
              · rfl
      · rw [if_neg hs1]
        by_cases hs2 : sel = some gj.id
        · rw [if_pos hs2]
          right
          refine ⟨j, gi.id, gj, h2, ?_, ?_⟩
          · cases b
            · rfl
            · rfl
          · intro Y hids ge2 hge2
            have hi := hids i
            have hj := hids j
            rw [h1] at hi
            rw [h2] at hj
            cases h1y : Y[i]? with
            | none =>
              rw [h1y] at hi
              simp at hi
            | some gi2 =>
              rw [h1y] at hi
              simp only [Option.map_some', Option.some.injEq] at hi
              cases h2y : Y[j]? with
              | none =>
                rw [h2y] at hj
                simp at hj
              | some gj2 =>
                rw [h2y] at hj
                simp only [Option.map_some', Option.some.injEq] at hj
                have hg : gj2 = ge2 := by
                  rw [h2y] at hge2
                  exact Option.some.inj hge2
                subst hg
                dsimp only
                rw [if_neg (show ¬sel = some gi2.id from
                    fun hcontra => hs1 (by rw [hi]; exact hcontra)),
                  if_pos (show sel = some gj2.id from by rw [hs2, hj])]
                dsimp only
                rw [← hi]
                cases b
                · rfl
                · rfl
        · rw [if_neg hs2]
          right
          refine ⟨i, gj.id, gi, h1, ?_, ?_⟩
          · cases b
            · rfl
            · rfl
          · intro Y hids ge2 hge2
            have hi := hids i
            have hj := hids j
            rw [h1] at hi
            rw [h2] at hj
            cases h1y : Y[i]? with
            | none =>
              rw [h1y] at hi
              simp at hi
            | some gi2 =>
              rw [h1y] at hi
              simp only [Option.map_some', Option.some.injEq] at hi
              cases h2y : Y[j]? with
              | none =>
                rw [h2y] at hj
                simp at hj
              | some gj2 =>
                rw [h2y] at hj
                simp only [Option.map_some', Option.some.injEq] at hj
                have hg : gi2 = ge2 := by
                  rw [h1y] at hge2
                  exact Option.some.inj hge2
                subst hg
                dsimp only
                rw [if_neg (show ¬sel = some gi2.id from
                    fun hcontra => hs1 (by rw [hi]; exact hcontra)),
                  if_neg (show ¬sel = some gj2.id from
                    fun hcontra => hs2 (by rw [hj]; exact hcontra))]
                dsimp only
                rw [← hj]
                cases b
                · rfl
                · rfl

theorem applyError_rerun (X : List Gear) (sel : Option ℕ)
    (op jp : Option (ℕ × ℕ)) :
    (applyError X sel op jp = X ∧
      ∀ Y : List Gear, (∀ k : ℕ, (X[k]?).map Gear.id = (Y[k]?).map Gear.id) →
        applyError Y sel op jp = Y) ∨
    ∃ (e t : ℕ) (ge : Gear) (b : Bool), X[e]? = some ge ∧
      applyError X sel op jp =
        X.set e (if b then setOverlapFields ge t else setJammingFields ge t) ∧
      ∀ Y : List Gear, (∀ k : ℕ, (X[k]?).map Gear.id = (Y[k]?).map Gear.id) →
        ∀ ge2, Y[e]? = some ge2 →
          applyError Y sel op jp =
            Y.set e (if b then setOverlapFields ge2 t
              else setJammingFields ge2 t) := by
  unfold applyError
  cases op with
  | some p =>
    rcases setErrorAt_rerun X sel p.1 p.2 true with
      ⟨hX, hY⟩ | ⟨e, t, ge, hge, hXe, hYe⟩
    · exact Or.inl ⟨hX, fun Y hids => hY Y hids⟩
    · exact Or.inr ⟨e, t, ge, true, hge, hXe,
        fun Y hids ge2 hge2 => hYe Y hids ge2 hge2⟩
  | none =>
    cases jp with
    | some p =>
      rcases setErrorAt_rerun X sel p.1 p.2 false with
        ⟨hX, hY⟩ | ⟨e, t, ge, hge, hXe, hYe⟩
      · exact Or.inl ⟨hX, fun Y hids => hY Y hids⟩
      · exact Or.inr ⟨e, t, ge, false, hge, hXe,
          fun Y hids ge2 hge2 => hYe Y hids ge2 hge2⟩
    | none => exact Or.inl ⟨rfl, fun Y hids => rfl⟩

/-- C8: the full connectivity rebuild is idempotent.  On any well-formed
registry (every jamming/overlap flag carries an `incompatibleWith`
reference, as the engine's error setters guarantee), running
`updateConnections` twice yields exactly the state of running it once:
same adjacency, same error assignment, same everything. -/
theorem claim8_idempotent (s : SimState) (hf : FlagsWithRef s.gears) :
    updateConnections (updateConnections s) = updateConnections s := by
  have hNoB : NoFlags (rebuildBase s) := by
    unfold rebuildBase
    exact NoFlags_clearConn (NoFlags_phase2 (NoFlags_phase1 hf))
  have hNoG : NoFlags (rebuildConnected s).1 := by
    unfold rebuildConnected
    exact NoFlags_connectLoop _ _ _ hNoB
  have hGexc : ((rebuildConnected s).1).map exceptConn =
      (rebuildBase s).map exceptConn := rebuildConnected_exceptConn s
  have hGsig : ((rebuildConnected s).1).map sig = (rebuildBase s).map sig := by
    unfold rebuildConnected
    exact connectLoop_map_proj sig (fun g l => rfl) _ _ _
  have hBsig : (rebuildBase s).map sig = s.gears.map sig := rebuildBase_sig s
  have hZsig : (phase1 s.gears).map sig = s.gears.map sig :=
    map_sig_phase1 s.gears
  have hrc1 : rebuildConnected s =
      connectLoop (sortByDist (collectCandidates (rebuildBase s)))
        (rebuildBase s) none := rfl
  have hGcert : ∀ (k : ℕ) (w : Gear) (t : ℕ),
      ((rebuildConnected s).1)[k]? = some w → w.incompatibleWith = some t →
      ∃ target, findGear (phase1 s.gears) t = some target ∧
        distBeyond (dist2 w.pos target.pos) (idealDistance w target) 10 =
          false := by
    intro k w t hk hinc
    have hb := getElem?_map_proj exceptConn hGexc k
    rw [hk] at hb
    cases hbk : (rebuildBase s)[k]? with
    | none =>
      rw [hbk] at hb
      exact absurd hb (by simp)
    | some bk =>
      rw [hbk] at hb
      simp only [Option.map_some', Option.some.injEq] at hb
      obtain ⟨-, hpa, hpos, -, -, -, hinc2, -, -⟩ := exceptConn_all hb
      have hbinc : bk.incompatibleWith = some t := by
        rw [← hinc2]
        exact hinc
      obtain ⟨target, htar, hdist⟩ := rebuildBase_kept_cert hf hbk hbinc
      refine ⟨target, htar, ?_⟩
      unfold idealDistance
      rw [hpos, hpa]
      unfold idealDistance at hdist
      exact hdist
  have hstate : ∀ s2 : SimState,
      updateConnections s2 = { s2 with gears := (updateConnections s2).gears } :=
    fun s2 => rfl
  rcases applyError_rerun (rebuildConnected s).1 s.selectedGear
      (findOverlapPair (rebuildBase s)) (rebuildConnected s).2 with
    ⟨hout, -⟩ | ⟨e, t, ge, b, hge, hout, hrerun⟩
  · have hgears : (updateConnections s).gears = (rebuildConnected s).1 := by
      rw [rebuild_decomp]
      exact hout
    have hW1 : phase1 (updateConnections s).gears = (rebuildConnected s).1 := by
      rw [hgears]
      exact phase1_of_noflags hNoG
    have hW2 : phase2 (rebuildConnected s).1 = (rebuildConnected s).1 :=
      phase2_no_op (by rw [hGsig, hBsig, ← hZsig]) hNoG hGcert
    have hB2 : rebuildBase (updateConnections s) = rebuildBase s := by
      unfold rebuildBase
      rw [hW1, hW2]
      exact rebuildConnected_map_clearConn s
    have hrc2 : rebuildConnected (updateConnections s) = rebuildConnected s := by
      unfold rebuildConnected
      rw [hB2]
    have hsel2 : (updateConnections s).selectedGear = s.selectedGear := rfl
    have hout2 : (updateConnections (updateConnections s)).gears =
        (updateConnections s).gears := by
      rw [rebuild_decomp (updateConnections s), hrc2, hB2, hsel2, hgears]
      exact hout
    rw [hstate (updateConnections s), hout2]
  · have hgef := hNoG ge (List.getElem?_mem hge)
    have hlenB : e < (rebuildBase s).length := by
      have h1 := getElem?_lt_length hge
      have h2 : ((rebuildConnected s).1).length = (rebuildBase s).length :=
        length_eq_of_map_proj sig hGsig
      omega
    have hgears : (updateConnections s).gears =
        ((rebuildConnected s).1).set e
          (if b then setOverlapFields ge t else setJammingFields ge t) := by
      rw [rebuild_decomp]
      exact hout
    have hW1 : phase1 (updateConnections s).gears =
        ((rebuildConnected s).1).set e (clearErrorFields ge) := by
      rw [hgears, phase1_set hNoG]
      rw [setX_cleanup t b hgef.1]
    have hNoW : NoFlags (((rebuildConnected s).1).set e (clearErrorFields ge)) :=
      NoFlags_set hNoG ⟨rfl, rfl⟩ e
    have hWsig : (((rebuildConnected s).1).set e
        (clearErrorFields ge)).map sig = ((rebuildConnected s).1).map sig := by
      apply map_proj_set
      rw [hge, Option.map_some']
      rfl
    have hWcert : ∀ (k : ℕ) (w : Gear) (t2 : ℕ),
        ((((rebuildConnected s).1).set e (clearErrorFields ge)))[k]? = some w →
        w.incompatibleWith = some t2 →
        ∃ target, findGear (phase1 s.gears) t2 = some target ∧
          distBeyond (dist2 w.pos target.pos) (idealDistance w target) 10 =
            false := by
      intro k w t2 hk hinc
      by_cases hke : e = k
      · subst hke
        rw [List.getElem?_set_self (getElem?_lt_length hge)] at hk
        have hw : clearErrorFields ge = w := Option.some.inj hk
        rw [← hw] at hinc
        exact absurd hinc (by simp [clearErrorFields])
      · rw [List.getElem?_set_ne hke] at hk
        exact hGcert k w t2 hk hinc
    have hW2 : phase2 (((rebuildConnected s).1).set e (clearErrorFields ge)) =
        ((rebuildConnected s).1).set e (clearErrorFields ge) :=
      phase2_no_op (by rw [hWsig, hGsig, hBsig, ← hZsig]) hNoW hWcert
    have hrb : rebuildBase (updateConnections s) =
        (phase2 (phase1 (updateConnections s).gears)).map
          (fun g => { g with connectedTo := [] }) := rfl
    have hB2 : rebuildBase (updateConnections s) =
        (rebuildBase s).set e { clearErrorFields ge with connectedTo := [] } := by
      rw [hrb, hW1, hW2, List.map_set, rebuildConnected_map_clearConn s]
    have hexcE : ∃ be, (rebuildBase s)[e]? = some be ∧
        exceptConn ge = exceptConn be := by
      have hexc := getElem?_map_proj exceptConn hGexc e
      rw [hge] at hexc
      cases hbe : (rebuildBase s)[e]? with
      | none =>
        rw [hbe] at hexc
        exact absurd hexc (by simp)
      | some be =>
        rw [hbe] at hexc
        simp only [Option.map_some', Option.some.injEq] at hexc
        exact ⟨be, rfl, hexc⟩
    obtain ⟨be, hbe, hexcbe⟩ := hexcE
    have hB2sig : (rebuildBase (updateConnections s)).map sig =
        (rebuildBase s).map sig := by
      rw [hB2]
      apply map_proj_set
      rw [hbe, Option.map_some']
      rw [(sig_of_exceptConn hexcbe).symm]
      rfl
    have hB2conn : (rebuildBase (updateConnections s)).map Gear.connectedTo =
        (rebuildBase s).map Gear.connectedTo := by
      rw [hB2, List.map_set]
      apply list_set_self
      rw [List.getElem?_map, hbe, Option.map_some', rebuildBase_conn_nil hbe]
    have hcands :
        sortByDist (collectCandidates (rebuildBase (updateConnections s))) =
        sortByDist (collectCandidates (rebuildBase s)) := by
      rw [collectCandidates_congr hB2sig]
    have hop2 : findOverlapPair (rebuildBase (updateConnections s)) =
        findOverlapPair (rebuildBase s) := findOverlapPair_congr hB2sig
    have hrc2a : rebuildConnected (updateConnections s) =
        connectLoop (sortByDist (collectCandidates (rebuildBase s)))
          (rebuildBase (updateConnections s)) none := by
      unfold rebuildConnected
      rw [hcands]
    have hloop := connectLoop_congr
      (sortByDist (collectCandidates (rebuildBase s)))
      (rebuildBase (updateConnections s)) (rebuildBase s) none hB2sig hB2conn
    have hjp : (rebuildConnected (updateConnections s)).2 =
        (rebuildConnected s).2 := by
      rw [hrc2a, hloop.1, ← hrc1]
    have hG2conn :
        ((rebuildConnected (updateConnections s)).1).map Gear.connectedTo =
        ((rebuildConnected s).1).map Gear.connectedTo := by
      rw [hrc2a, hloop.2, ← hrc1]
    have hG2sig : ((rebuildConnected (updateConnections s)).1).map sig =
        ((rebuildConnected s).1).map sig := by
      rw [hrc2a, connectLoop_map_proj sig (fun g l => rfl) _ _ _, hB2sig, hGsig]
    have hids : ∀ k : ℕ, (((rebuildConnected s).1)[k]?).map Gear.id =
        (((rebuildConnected (updateConnections s)).1)[k]?).map Gear.id := by
      intro k
      exact (getElem?_map_proj Gear.id (map_gearId_of_map_sig hG2sig) k).symm
    have hge2ex : ∃ ge2,
        ((rebuildConnected (updateConnections s)).1)[e]? = some ge2 := by
      have h1 := hids e
      rw [hge] at h1
      cases h2 : ((rebuildConnected (updateConnections s)).1)[e]? with
      | none =>
        rw [h2] at h1
        simp at h1
      | some ge2 => exact ⟨ge2, rfl⟩
    obtain ⟨ge2, hge2⟩ := hge2ex
    have hsel2 : (updateConnections s).selectedGear = s.selectedGear := rfl
    have hout2 : (updateConnections (updateConnections s)).gears =
        ((rebuildConnected (updateConnections s)).1).set e
          (if b then setOverlapFields ge2 t else setJammingFields ge2 t) := by
      rw [rebuild_decomp (updateConnections s), hjp, hop2, hsel2]
      exact hrerun ((rebuildConnected (updateConnections s)).1) hids ge2 hge2
    have hG2exc : ((rebuildConnected (updateConnections s)).1).map exceptConn =
        ((rebuildBase s).map exceptConn).set e
          (exceptConn { clearErrorFields ge with connectedTo := [] }) := by
      rw [rebuildConnected_exceptConn (updateConnections s), hB2, List.map_set]
    have hfinal : ((rebuildConnected (updateConnections s)).1).set e
          (if b then setOverlapFields ge2 t else setJammingFields ge2 t) =
        ((rebuildConnected s).1).set e
          (if b then setOverlapFields ge t else setJammingFields ge t) := by
      apply List.ext_getElem?
      intro k
      by_cases hke : e = k
      · subst hke
        rw [List.getElem?_set_self (getElem?_lt_length hge2),
          List.getElem?_set_self (getElem?_lt_length hge)]
        have hexc2 : exceptConn ge2 =
            exceptConn { clearErrorFields ge with connectedTo := [] } := by
          have h1 : ((((rebuildConnected (updateConnections s)).1).map
              exceptConn))[e]? = some (exceptConn ge2) := by
            rw [List.getElem?_map, hge2, Option.map_some']
          rw [hG2exc,
            List.getElem?_set_self (by rw [List.length_map]; exact hlenB)] at h1
          exact (Option.some.inj h1).symm
        have hconn2 : ge2.connectedTo = ge.connectedTo := by
          have h1 := getElem?_map_proj Gear.connectedTo hG2conn e
          rw [hge2, hge] at h1
          simpa using h1
        obtain ⟨c1, c2, c3, c4, c5, c6, -, c8, c9⟩ := exceptConn_all hexc2
        exact congrArg some (setFields_eq_of t b c1 c2 c3 c4 c5 c6 hconn2
          (c8.trans hgef.1.symm) (c9.trans hgef.2.symm))
      · rw [List.getElem?_set_ne hke, List.getElem?_set_ne hke]
        have h1 := getElem?_map_proj Gear.connectedTo hG2conn k
        have h2 : ((((rebuildConnected (updateConnections s)).1).map
            exceptConn))[k]? = ((((rebuildConnected s).1).map
            exceptConn))[k]? := by
          rw [hG2exc, List.getElem?_set_ne hke, rebuildConnected_exceptConn s]
        rw [List.getElem?_map, List.getElem?_map] at h2
        cases hk2 : ((rebuildConnected (updateConnections s)).1)[k]? with
        | none =>
          cases hk1 : ((rebuildConnected s).1)[k]? with
          | none => rfl
          | some gk =>
            rw [hk2, hk1] at h2
            simp at h2
        | some gk2 =>
          cases hk1 : ((rebuildConnected s).1)[k]? with
          | none =>
            rw [hk2, hk1] at h2
            simp at h2
          | some gk =>
            rw [hk2, hk1] at h2
            rw [hk2, hk1] at h1
            simp only [Option.map_some', Option.some.injEq] at h1 h2
            rw [gear_ext h2 h1]
    rw [hstate (updateConnections s), hout2, hfinal, ← hgears]

/-- C8, witness: the triangle scene (whose rebuild flags the odd-cycle
A-C pair as jamming) is well-formed, and rebuilding it twice gives exactly
the once-rebuilt state. -/
theorem claim8_witness : FlagsWithRef triState.gears ∧
    updateConnections (updateConnections triState) =
      updateConnections triState :=
  ⟨by decide, claim8_idempotent triState (by decide)⟩

end Claims

end GearSim
